import Mathlib

/-!
# Interpreter stub generators of the riscv64 port (interpreter_riscv64.cpp)

The generators of `interpreter_riscv64.cpp` are embedded as Lean functions that
append assembler items to a `MacroAssembler` buffer, exactly in the order of the
`__ insn(...)` lines of the source.  The emitted items are then run on a small
model of the RV64 machine (64-bit integer and floating-point register files as
bit patterns, byte-addressed little-endian memory) so that statements about
"the generated entry" are statements about executions of the emitted code.
Code outside this file of the repository (library routines, the runtime calls,
`generate_normal_entry`) is a parameter of the execution (`Env`, `Globals`).
-/

namespace Riscv64Interp

/-! ## Words, registers, memory -/

/-- A code or data address. -/
abbrev address := Nat
/-- Number of an integer register, x0..x31. -/
abbrev Register := Nat
/-- Number of a floating-point register, f0..f31. -/
abbrev FloatRegister := Nat

/-- The null code address. -/
def NULL : address := 0

/-- Size of a machine word in bytes (`wordSize` of the 64-bit VM). -/
def wordSize : Int := 8

/-- Modelled from the spec: `Interpreter::stackElementSize` is declared outside
this file; one evaluation-stack element is one machine word. -/
def stackElementSize : Int := 8

/-! Modelled from the spec: the register names come from `register_riscv64.hpp`
and `assembler_riscv64.hpp`, which are not in src; they follow the RISC-V
calling convention (x1 link register, x2 stack pointer, x10..x17 and f10..f17
argument registers). -/

/-- The hard-wired zero register x0. -/
def zr : Register := 0
/-- The link register x1. -/
def lr : Register := 1
/-- The machine stack pointer x2. -/
def sp : Register := 2
/-- Scratch register x5. -/
def t0 : Register := 5
/-- Scratch register x6. -/
def t1 : Register := 6
/-- The frame pointer x8. -/
def fp : Register := 8
/-- The first callee-saved register after fp. -/
def x9 : Register := 9
/-- First integer argument register of the C convention. -/
def c_rarg0 : Register := 10
/-- Second integer argument register of the C convention. -/
def c_rarg1 : Register := 11
/-- Third integer argument register of the C convention. -/
def c_rarg2 : Register := 12
/-- Fourth integer argument register of the C convention. -/
def c_rarg3 : Register := 13
/-- The interpreter expression-stack pointer. -/
def esp : Register := 20
/-- The bytecode pointer. -/
def xbcp : Register := 22
/-- The locals pointer. -/
def xlocals : Register := 24
/-- The register holding the sender sp on entry. -/
def x30 : Register := 30
/-- The register holding the Method* on entry. -/
def xmethod : Register := 31
/-- Floating-point return-value and first argument register. -/
def f10 : FloatRegister := 10
/-- Second floating-point argument register. -/
def f11 : FloatRegister := 11

/-- Number of integer argument registers of the C calling convention
(`Argument::n_int_register_parameters_c`). -/
def n_int_register_parameters_c : Nat := 8

/-- Number of floating-point argument registers of the C calling convention
(`Argument::n_float_register_parameters_c`). -/
def n_float_register_parameters_c : Nat := 8

/-- Modelled from the spec: the table `g_INTArgReg` is declared outside this
file; the ordered integer argument registers c_rarg0..c_rarg7 = x10..x17. -/
def g_INTArgReg (i : Nat) : Register := 10 + i

/-- Modelled from the spec: the table `g_FPArgReg` is declared outside this
file; the ordered floating-point argument registers f10..f17. -/
def g_FPArgReg (i : Nat) : FloatRegister := 10 + i

/-- Two to the 64: register values and addresses are taken modulo this. -/
def W64 : Nat := 18446744073709551616

/-- A signed immediate or offset as a 64-bit pattern (twos-complement encoding). -/
def toU64 (i : Int) : Nat := (i % 18446744073709551616).toNat

/-- Architectural state: integer registers, floating-point registers (bit
patterns) and byte-addressed memory. -/
structure Machine where
  x : Nat → Nat
  f : Nat → Nat
  mem : Nat → Nat

/-- Reads an integer register; x0 is hard-wired to zero. -/
def getX (m : Machine) (r : Register) : Nat :=
  if r = 0 then 0 else m.x r % W64

/-- Writes an integer register (a write to x0 is dropped). -/
def setX (m : Machine) (r : Register) (v : Nat) : Machine :=
  if r = 0 then m else { m with x := fun q => if q = r then v % W64 else m.x q }

/-- Reads a floating-point register as a 64-bit pattern. -/
def getF (m : Machine) (r : FloatRegister) : Nat := m.f r % W64

/-- Writes a floating-point register. -/
def setF (m : Machine) (r : FloatRegister) (v : Nat) : Machine :=
  { m with f := fun q => if q = r then v % W64 else m.f q }

/-- Little-endian load of `n` bytes starting at address `a` (addresses wrap). -/
def loadLE (mem : Nat → Nat) (a : Nat) : Nat → Nat
  | 0 => 0
  | n + 1 => mem (a % W64) % 256 + 256 * loadLE mem (a + 1) n

/-- Little-endian store of the low `n` bytes of `v` starting at address `a`. -/
def storeLE (mem : Nat → Nat) (a v : Nat) : Nat → (Nat → Nat)
  | 0 => mem
  | n + 1 => storeLE (fun q => if q = a % W64 then v % 256 else mem q) (a + 1) (v / 256) n

/-- Load of a 64-bit word. -/
def load64 (mem : Nat → Nat) (a : Nat) : Nat := loadLE mem a 8

/-- Load of a 32-bit word. -/
def load32 (mem : Nat → Nat) (a : Nat) : Nat := loadLE mem a 4

/-- Addition of 64-bit words, `a + b`. -/
def add64 (a b : Nat) : Nat := (a + b) % W64

/-- Subtraction of 64-bit words, `a - b`. -/
def sub64 (a b : Nat) : Nat := (a + (W64 - b % W64)) % W64

/-- Effective address of `Address(base, off)`. -/
def effAddr (m : Machine) (base : Register) (off : Int) : Nat :=
  add64 (getX m base) (toU64 off)

/-- A single-precision value in a 64-bit floating-point register is NaN-boxed:
the upper 32 bits are all ones. -/
def nanbox (w : Nat) : Nat := 18446744069414584320 + w % 4294967296

/-- Instruction `fabs.d` (fsgnjx.d rd, rs, rs): clears the sign bit. -/
def fabs_d_bits (d : Nat) : Nat := d % 9223372036854775808

/-! ## Assembler items -/

/-- Assembler labels used by the generators (the `Label` locals of the source). -/
inductive Label
  | d (i : Nat)
  | done (i : Nat)
  | slow_path
  deriving DecidableEq, Repr

/-- The assembler and macro-assembler items emitted by the generators of this
file.  `bind` marks the position of a label. -/
inductive Instr
  | andi (rd rs : Register) (imm : Int)
  | addi (rd rs : Register) (imm : Int)
  | mv (rd rs : Register)
  | mv_addr (rd : Register) (a : address)
  | sd (rs base : Register) (off : Int)
  | ld (rd base : Register) (off : Int)
  | lwu (rd base : Register) (off : Int)
  | flw (fd : FloatRegister) (base : Register) (off : Int)
  | fld (fd : FloatRegister) (base : Register) (off : Int)
  | fabs_d (fd fs : FloatRegister)
  | fsqrt_d (fd fs : FloatRegister)
  | bnez (rs : Register) (l : Label)
  | j (l : Label)
  | bind (l : Label)
  | jalr (rs : Register)
  | jr (rs : Register)
  | ret
  | la (rd : Register) (v : Int)
  | call_VM (entry_point : address) (args : List Register)
  | empty_expression_stack
  | restore_bcp
  | restore_locals
  | should_not_reach_here
  deriving DecidableEq, Repr

/-- The code buffer of the macro assembler: where the buffer starts and the
items emitted so far. -/
structure MacroAssembler where
  code_begin : address
  code : List Instr
  deriving DecidableEq, Repr

/-- Current code position (`__ pc()`), counted in emitted items. -/
def MacroAssembler.pc (masm : MacroAssembler) : address :=
  masm.code_begin + masm.code.length

/-- Appends one item to the code buffer. -/
def MacroAssembler.emit (masm : MacroAssembler) (i : Instr) : MacroAssembler :=
  { masm with code := masm.code ++ [i] }

/-- Modelled from the spec: `AbstractInterpreter::MethodKind` is declared
outside this file; the closed enumeration of method kinds, with the
reserved-but-disabled fused-multiply-add variants. -/
inductive MethodKind
  | zerolocals
  | zerolocals_synchronized
  | native
  | native_synchronized
  | empty
  | accessor
  | abstract
  | method_handle_invoke
  | java_lang_math_sin
  | java_lang_math_cos
  | java_lang_math_tan
  | java_lang_math_abs
  | java_lang_math_sqrt
  | java_lang_math_log
  | java_lang_math_log10
  | java_lang_math_pow
  | java_lang_math_exp
  | java_lang_math_fmaD
  | java_lang_math_fmaF
  | java_lang_ref_reference_get
  | java_util_zip_CRC32_update
  | java_util_zip_CRC32_updateBytes
  | java_util_zip_CRC32_updateByteBuffer
  deriving DecidableEq, Repr

/-- Generation-time globals read by the generators: VM flags, the addresses of
the runtime routines, and the code emitted by `generate_normal_entry`
(all declared outside this file). -/
structure Globals where
  InlineIntrinsics : Bool
  UseFastEmptyMethods : Bool
  StubRoutines_dsin : address
  StubRoutines_dcos : address
  StubRoutines_dtan : address
  StubRoutines_dlog : address
  StubRoutines_dlog10 : address
  StubRoutines_dexp : address
  StubRoutines_dpow : address
  SharedRuntime_dsin : address
  SharedRuntime_dcos : address
  SharedRuntime_dtan : address
  SharedRuntime_dlog : address
  SharedRuntime_dlog10 : address
  SharedRuntime_dexp : address
  SharedRuntime_dpow : address
  InterpreterRuntime_slow_signature_handler : address
  InterpreterRuntime_throw_AbstractMethodError : address
  SafepointSynchronize_address_of_state : address
  normal_entry_code : Bool → List Instr

/-! ## The generators -/

/-- `AbstractInterpreterGenerator::generate_slow_signature_handler`. -/
def generate_slow_signature_handler (G : Globals) (masm : MacroAssembler) :
    address × MacroAssembler :=
  let entry := masm.pc
  let masm := masm.emit (.andi esp esp (-16))
  let masm := masm.emit (.mv c_rarg3 esp)
  let masm := masm.emit (.addi sp c_rarg3 (-18 * wordSize))
  let masm := masm.emit (.addi sp sp (-2 * wordSize))
  let masm := masm.emit (.sd lr sp 0)
  let masm := masm.emit
    (.call_VM G.InterpreterRuntime_slow_signature_handler [xmethod, xlocals, c_rarg3])
  -- Restore LR
  let masm := masm.emit (.ld lr sp 0)
  let masm := masm.emit (.addi sp sp (2 * wordSize))
  -- Do FP first so we can use c_rarg3 as temp
  let masm := masm.emit (.lwu c_rarg3 sp (9 * wordSize))
  let masm := (List.range n_float_register_parameters_c).foldl (fun masm i =>
    let r := g_FPArgReg i
    let masm := masm.emit (.andi t0 c_rarg3 (2 ^ i))
    let masm := masm.emit (.bnez t0 (.d i))
    let masm := masm.emit (.flw r sp ((10 + (i : Int)) * wordSize))
    let masm := masm.emit (.j (.done i))
    let masm := masm.emit (.bind (.d i))
    let masm := masm.emit (.fld r sp ((10 + (i : Int)) * wordSize))
    masm.emit (.bind (.done i))) masm
  let masm := ((List.range n_int_register_parameters_c).drop 1).foldl (fun masm i =>
    let rm := g_INTArgReg i
    masm.emit (.ld rm sp ((i : Int) * wordSize))) masm
  let masm := masm.emit (.addi sp sp (18 * wordSize))
  let masm := masm.emit .ret
  (entry, masm)

/-- `InterpreterGenerator::generate_math_entry`.  The triple built by the
switch is (entry_point, continuation, assembler); `fn` is the address moved
into t0. -/
def generate_math_entry (G : Globals) (kind : MethodKind) (masm : MacroAssembler) :
    address × MacroAssembler :=
  if !G.InlineIntrinsics then
    (NULL, masm) -- Generate a vanilla entry
  else
    let r : address × Register × MacroAssembler :=
      match kind with
      | .java_lang_math_abs =>
        let entry_point := masm.pc
        let masm := masm.emit (.fld f10 esp 0)
        let masm := masm.emit (.fabs_d f10 f10)
        let masm := masm.emit (.mv sp x30) -- Restore caller's SP
        (entry_point, lr, masm)
      | .java_lang_math_sqrt =>
        let entry_point := masm.pc
        let masm := masm.emit (.fld f10 esp 0)
        let masm := masm.emit (.fsqrt_d f10 f10)
        let masm := masm.emit (.mv sp x30)
        (entry_point, lr, masm)
      | .java_lang_math_sin =>
        let entry_point := masm.pc
        let masm := masm.emit (.fld f10 esp 0)
        let masm := masm.emit (.mv sp x30)
        let masm := masm.emit (.mv x9 lr)
        let continuation := x9 -- The first callee-saved register
        let fn := if G.StubRoutines_dsin = NULL then G.SharedRuntime_dsin
          else G.StubRoutines_dsin
        let masm := masm.emit (.mv_addr t0 fn)
        let masm := masm.emit (.jalr t0)
        (entry_point, continuation, masm)
      | .java_lang_math_cos =>
        let entry_point := masm.pc
        let masm := masm.emit (.fld f10 esp 0)
        let masm := masm.emit (.mv sp x30)
        let masm := masm.emit (.mv x9 lr)
        let continuation := x9 -- The first callee-saved register
        let fn := if G.StubRoutines_dcos = NULL then G.SharedRuntime_dcos
          else G.StubRoutines_dcos
        let masm := masm.emit (.mv_addr t0 fn)
        let masm := masm.emit (.jalr t0)
        (entry_point, continuation, masm)
      | .java_lang_math_tan =>
        let entry_point := masm.pc
        let masm := masm.emit (.fld f10 esp 0)
        let masm := masm.emit (.mv sp x30)
        let masm := masm.emit (.mv x9 lr)
        let continuation := x9 -- The first callee-saved register
        let fn := if G.StubRoutines_dtan = NULL then G.SharedRuntime_dtan
          else G.StubRoutines_dtan
        let masm := masm.emit (.mv_addr t0 fn)
        let masm := masm.emit (.jalr t0)
        (entry_point, continuation, masm)
      | .java_lang_math_log =>
        let entry_point := masm.pc
        let masm := masm.emit (.fld f10 esp 0)
        let masm := masm.emit (.mv sp x30)
        let masm := masm.emit (.mv x9 lr)
        let continuation := x9 -- The first callee-saved register
        let fn := if G.StubRoutines_dlog = NULL then G.SharedRuntime_dlog
          else G.StubRoutines_dlog
        let masm := masm.emit (.mv_addr t0 fn)
        let masm := masm.emit (.jalr t0)
        (entry_point, continuation, masm)
      | .java_lang_math_log10 =>
        let entry_point := masm.pc
        let masm := masm.emit (.fld f10 esp 0)
        let masm := masm.emit (.mv sp x30)
        let masm := masm.emit (.mv x9 lr)
        let continuation := x9 -- The first callee-saved register
        let fn := if G.StubRoutines_dlog10 = NULL then G.SharedRuntime_dlog10
          else G.StubRoutines_dlog10
        let masm := masm.emit (.mv_addr t0 fn)
        let masm := masm.emit (.jalr t0)
        (entry_point, continuation, masm)
      | .java_lang_math_exp =>
        let entry_point := masm.pc
        let masm := masm.emit (.fld f10 esp 0)
        let masm := masm.emit (.mv sp x30)
        let masm := masm.emit (.mv x9 lr)
        let continuation := x9 -- The first callee-saved register
        let fn := if G.StubRoutines_dexp = NULL then G.SharedRuntime_dexp
          else G.StubRoutines_dexp
        let masm := masm.emit (.mv_addr t0 fn)
        let masm := masm.emit (.jalr t0)
        (entry_point, continuation, masm)
      | .java_lang_math_pow =>
        let entry_point := masm.pc
        let masm := masm.emit (.mv x9 lr)
        let continuation := x9
        let masm := masm.emit (.fld f10 esp (2 * stackElementSize))
        let masm := masm.emit (.fld f11 esp 0)
        let masm := masm.emit (.mv sp x30)
        let fn := if G.StubRoutines_dpow = NULL then G.SharedRuntime_dpow
          else G.StubRoutines_dpow
        let masm := masm.emit (.mv_addr t0 fn)
        let masm := masm.emit (.jalr t0)
        (entry_point, continuation, masm)
      | _ => (NULL, lr, masm)
    if r.1 ≠ NULL then
      (r.1, r.2.2.emit (.jr r.2.1))
    else
      (r.1, r.2.2)

/-- `InterpreterGenerator::generate_abstract_entry`. -/
def generate_abstract_entry (G : Globals) (masm : MacroAssembler) :
    address × MacroAssembler :=
  let entry_point := masm.pc
  let masm := masm.emit .empty_expression_stack
  let masm := masm.emit .restore_bcp
  let masm := masm.emit .restore_locals
  let masm := masm.emit (.call_VM G.InterpreterRuntime_throw_AbstractMethodError [xmethod])
  let masm := masm.emit .should_not_reach_here
  (entry_point, masm)

/-- Modelled from the spec: `MacroAssembler::la_patchable` is defined outside
this file.  It materialises in `reg` the target address minus a signed 12-bit
`offset` that it hands back, so that `reg + offset` is the target. -/
def la_patchable (masm : MacroAssembler) (reg : Register) (dest : address) :
    Int × MacroAssembler :=
  let offset : Int := ((dest : Int) + 2048) % 4096 - 2048
  (offset, masm.emit (.la reg ((dest : Int) - offset)))

/-- Modelled from the spec: `generate_normal_entry` is defined outside this
file; it appends the code of the general entry path and returns its start. -/
def generate_normal_entry (G : Globals) (synchronized : Bool) (masm : MacroAssembler) :
    address × MacroAssembler :=
  (masm.pc, { masm with code := masm.code ++ G.normal_entry_code synchronized })

/-- `InterpreterGenerator::generate_empty_entry`. -/
def generate_empty_entry (G : Globals) (masm : MacroAssembler) :
    address × MacroAssembler :=
  if !G.UseFastEmptyMethods then
    (NULL, masm)
  else
    let entry_point := masm.pc
    let (offset, masm) := la_patchable masm t1 G.SafepointSynchronize_address_of_state
    let masm := masm.emit (.lwu t1 t1 offset)
    let masm := masm.emit (.bnez t1 .slow_path)
    let masm := masm.emit (.mv sp x30)
    let masm := masm.emit (.jr lr)
    let masm := masm.emit (.bind .slow_path)
    let masm := (generate_normal_entry G false masm).2
    (entry_point, masm)

/-! ## Execution of the emitted code -/

/-- What an execution does that is visible from outside the register file:
memory writes, floating-point loads, calls, and the interpreter-frame macros. -/
inductive Event
  | store (addr : Nat) (nbytes : Nat)
  | fp_load (fd : FloatRegister) (double : Bool) (addr : Nat)
  | leaf_call (target : address) (a0 a1 : Nat)
  | vm_call (entry_point : address) (args : List Nat)
  | empty_expression_stack
  | restore_bcp
  | restore_locals
  deriving DecidableEq, Repr

/-- The collaborators of the generated code at run time, all defined outside
this file: the square-root unit (on bit patterns), the leaf routines reached
by `jalr` (their effect on the machine up to their return), the runtime entry
points reached by `call_VM` (`none`: the call left a pending exception and
control went to the exception forwarder), and the frame-slot offsets used by
the interpreter-frame macros. -/
structure Env where
  fsqrt_d : Nat → Nat
  leaf : address → Machine → Machine
  call_VM : address → List Nat → Machine → Option Machine
  interpreter_frame_monitor_block_top_offset : Int
  interpreter_frame_last_sp_offset : Int
  interpreter_frame_bcp_offset : Int
  interpreter_frame_locals_offset : Int

/-- A running execution: index of the next item, machine, events so far. -/
structure State where
  pc : Nat
  m : Machine
  trace : List Event

/-- How a run stands: still inside the emitted code, control transferred to
`target` by `jr`/`ret`, a runtime call forwarded a pending exception, the
`should_not_reach_here` stop was hit, or the fetch left the emitted code. -/
inductive Outcome
  | running (s : State)
  | exit (target : Nat) (s : State)
  | forward_exception (s : State)
  | stop (s : State)
  | fault (s : State)

/-- Whether an item is the binding of label `l`. -/
def Instr.isBind (l : Label) : Instr → Bool
  | .bind k => decide (k = l)
  | _ => false

/-- Position of label `l` in the code. -/
def findLabel (code : List Instr) (l : Label) : Nat := code.findIdx (Instr.isBind l)

/-- One step of the machine on the emitted code.  `base` is the address of
item 0, used for the return address that `jalr` leaves in `lr`.
Modelled from the spec: the interpreter-frame macros and `call_VM` are defined
outside this file; `empty_expression_stack` reloads `esp` from the monitor
block top and clears the saved last sp, `restore_bcp` and `restore_locals`
reload `xbcp` and `xlocals` from their frame slots, `call_VM` passes the listed
registers to the runtime entry and forwards a pending exception. -/
def step (env : Env) (base : address) (code : List Instr) (s : State) : Outcome :=
  match code[s.pc]? with
  | none => .fault s
  | some i =>
    let m := s.m
    match i with
    | .andi rd rs imm =>
      .running { s with pc := s.pc + 1, m := setX m rd (getX m rs &&& toU64 imm) }
    | .addi rd rs imm =>
      .running { s with pc := s.pc + 1, m := setX m rd (add64 (getX m rs) (toU64 imm)) }
    | .mv rd rs => .running { s with pc := s.pc + 1, m := setX m rd (getX m rs) }
    | .mv_addr rd a => .running { s with pc := s.pc + 1, m := setX m rd a }
    | .la rd v => .running { s with pc := s.pc + 1, m := setX m rd (toU64 v) }
    | .sd rs b off =>
      let a := effAddr m b off
      .running { pc := s.pc + 1, m := { m with mem := storeLE m.mem a (getX m rs) 8 },
                 trace := s.trace ++ [.store a 8] }
    | .ld rd b off =>
      .running { s with pc := s.pc + 1, m := setX m rd (load64 m.mem (effAddr m b off)) }
    | .lwu rd b off =>
      .running { s with pc := s.pc + 1, m := setX m rd (load32 m.mem (effAddr m b off)) }
    | .flw fd b off =>
      let a := effAddr m b off
      .running { pc := s.pc + 1, m := setF m fd (nanbox (load32 m.mem a)),
                 trace := s.trace ++ [.fp_load fd false a] }
    | .fld fd b off =>
      let a := effAddr m b off
      .running { pc := s.pc + 1, m := setF m fd (load64 m.mem a),
                 trace := s.trace ++ [.fp_load fd true a] }
    | .fabs_d fd fs =>
      .running { s with pc := s.pc + 1, m := setF m fd (fabs_d_bits (getF m fs)) }
    | .fsqrt_d fd fs =>
      .running { s with pc := s.pc + 1, m := setF m fd (env.fsqrt_d (getF m fs)) }
    | .bnez rs l =>
      if getX m rs ≠ 0 then .running { s with pc := findLabel code l }
      else .running { s with pc := s.pc + 1 }
    | .j l => .running { s with pc := findLabel code l }
    | .bind _ => .running { s with pc := s.pc + 1 }
    | .jalr rs =>
      let target := getX m rs
      let m1 := setX m lr (base + s.pc + 1)
      .running { pc := s.pc + 1, m := env.leaf target m1,
                 trace := s.trace ++ [.leaf_call target (getF m f10) (getF m f11)] }
    | .jr rs => .exit (getX m rs) s
    | .ret => .exit (getX m lr) s
    | .call_VM entry_point args =>
      let vals := args.map (getX m)
      let tr := s.trace ++ [.vm_call entry_point vals]
      match env.call_VM entry_point vals m with
      | none => .forward_exception { s with trace := tr }
      | some m1 => .running { pc := s.pc + 1, m := m1, trace := tr }
    | .empty_expression_stack =>
      let a := effAddr m fp (env.interpreter_frame_last_sp_offset * wordSize)
      let m1 := setX m esp
        (load64 m.mem (effAddr m fp (env.interpreter_frame_monitor_block_top_offset * wordSize)))
      .running { pc := s.pc + 1, m := { m1 with mem := storeLE m1.mem a 0 8 },
                 trace := s.trace ++ [.empty_expression_stack, .store a 8] }
    | .restore_bcp =>
      .running { pc := s.pc + 1,
                 m := setX m xbcp
                   (load64 m.mem (effAddr m fp (env.interpreter_frame_bcp_offset * wordSize))),
                 trace := s.trace ++ [.restore_bcp] }
    | .restore_locals =>
      .running { pc := s.pc + 1,
                 m := setX m xlocals
                   (load64 m.mem (effAddr m fp (env.interpreter_frame_locals_offset * wordSize))),
                 trace := s.trace ++ [.restore_locals] }
    | .should_not_reach_here => .stop s

/-- Runs at most `fuel` steps; a run that has left the code stays where it is. -/
def run (env : Env) (base : address) (code : List Instr) : Nat → State → Outcome
  | 0, s => .running s
  | n + 1, s =>
    match step env base code s with
    | .running s1 => run env base code n s1
    | o => o

/-- The state in which an entry is entered: first item, no event yet. -/
def State.entry (m : Machine) : State := { pc := 0, m := m, trace := [] }

/-- A fresh code buffer starting at `base`. -/
def MacroAssembler.fresh (base : address) : MacroAssembler := { code_begin := base, code := [] }

/-- Code emitted by `generate_slow_signature_handler` into a fresh buffer. -/
def slow_signature_handler_code (G : Globals) (base : address) : List Instr :=
  (generate_slow_signature_handler G (MacroAssembler.fresh base)).2.code

/-- Code emitted by `generate_math_entry` into a fresh buffer. -/
def math_entry_code (G : Globals) (kind : MethodKind) (base : address) : List Instr :=
  (generate_math_entry G kind (MacroAssembler.fresh base)).2.code

/-- Code emitted by `generate_abstract_entry` into a fresh buffer. -/
def abstract_entry_code (G : Globals) (base : address) : List Instr :=
  (generate_abstract_entry G (MacroAssembler.fresh base)).2.code

/-- Code emitted by `generate_empty_entry` into a fresh buffer. -/
def empty_entry_code (G : Globals) (base : address) : List Instr :=
  (generate_empty_entry G (MacroAssembler.fresh base)).2.code

/-! ## Vocabulary of the properties -/

/-- The kinds whose result is computed inline by one floating-point instruction. -/
def inline_kinds : List MethodKind := [.java_lang_math_abs, .java_lang_math_sqrt]

/-- The single-argument kinds that call a library routine. -/
def library_kinds : List MethodKind :=
  [.java_lang_math_sin, .java_lang_math_cos, .java_lang_math_tan,
   .java_lang_math_log, .java_lang_math_log10, .java_lang_math_exp]

/-- The nine kinds handled by the math entry. -/
def handled_kinds : List MethodKind :=
  inline_kinds ++ library_kinds ++ [.java_lang_math_pow]

/-- The routine a kind is expected to call: the `StubRoutines` routine when it
is non-NULL at generation time, the `SharedRuntime` routine otherwise. -/
def library_routine (G : Globals) : MethodKind → address
  | .java_lang_math_sin =>
    if G.StubRoutines_dsin ≠ NULL then G.StubRoutines_dsin else G.SharedRuntime_dsin
  | .java_lang_math_cos =>
    if G.StubRoutines_dcos ≠ NULL then G.StubRoutines_dcos else G.SharedRuntime_dcos
  | .java_lang_math_tan =>
    if G.StubRoutines_dtan ≠ NULL then G.StubRoutines_dtan else G.SharedRuntime_dtan
  | .java_lang_math_log =>
    if G.StubRoutines_dlog ≠ NULL then G.StubRoutines_dlog else G.SharedRuntime_dlog
  | .java_lang_math_log10 =>
    if G.StubRoutines_dlog10 ≠ NULL then G.StubRoutines_dlog10 else G.SharedRuntime_dlog10
  | .java_lang_math_exp =>
    if G.StubRoutines_dexp ≠ NULL then G.StubRoutines_dexp else G.SharedRuntime_dexp
  | .java_lang_math_pow =>
    if G.StubRoutines_dpow ≠ NULL then G.StubRoutines_dpow else G.SharedRuntime_dpow
  | _ => NULL

/-- The machine in which a single-argument library routine is entered: the
argument `d` in f10, sp already the sender sp, the entry lr parked in x9, the
routine address in t0 and the return address in lr. -/
def library_call_state (m : Machine) (fn ret_addr : address) : Machine :=
  setX (setX (setX (setX (setF m f10 (load64 m.mem (getX m esp))) sp (getX m x30))
    x9 (getX m lr)) t0 fn) lr ret_addr

/-- The machine in which the pow routine is entered: base in f10, exponent in
f11, sp the sender sp, the entry lr parked in x9. -/
def pow_call_state (m : Machine) (fn ret_addr : address) : Machine :=
  setX (setX (setX (setF (setF (setX m x9 (getX m lr)) f10
    (load64 m.mem (add64 (getX m esp) 16))) f11 (load64 m.mem (getX m esp)))
    sp (getX m x30)) t0 fn) lr ret_addr

/-- Whether an event is the call of a leaf routine. -/
def Event.isLeafCall : Event → Bool
  | .leaf_call _ _ _ => true
  | _ => false

/-- The leaf-routine calls of a trace, in order. -/
def leaf_calls (tr : List Event) : List Event := tr.filter Event.isLeafCall

/-- Whether an event is a memory write. -/
def Event.isStore : Event → Bool
  | .store _ _ => true
  | _ => false

/-- The memory writes of a trace, in order. -/
def stores (tr : List Event) : List Event := tr.filter Event.isStore

/-- Whether an event is a load into floating-point register `fd`. -/
def Event.isFpLoadInto (fd : FloatRegister) : Event → Bool
  | .fp_load r _ _ => decide (r = fd)
  | _ => false

/-- The loads into floating-point register `fd` of a trace, in order. -/
def fp_loads_into (fd : FloatRegister) (tr : List Event) : List Event :=
  tr.filter (Event.isFpLoadInto fd)

/-- Whether an item can write integer register `r`; calls are counted as
writing every register. -/
def Instr.writes (r : Register) : Instr → Bool
  | .andi rd _ _ => decide (rd = r)
  | .addi rd _ _ => decide (rd = r)
  | .mv rd _ => decide (rd = r)
  | .mv_addr rd _ => decide (rd = r)
  | .ld rd _ _ => decide (rd = r)
  | .lwu rd _ _ => decide (rd = r)
  | .la rd _ => decide (rd = r)
  | .jalr _ => true
  | .call_VM _ _ => true
  | .empty_expression_stack => decide (esp = r)
  | .restore_bcp => decide (xbcp = r)
  | .restore_locals => decide (xlocals = r)
  | _ => false

/-- Whether an item returns or jumps through a register. -/
def Instr.isReturnOrJump : Instr → Bool
  | .jr _ => true
  | .ret => true
  | .jalr _ => true
  | .j _ => true
  | .bnez _ _ => true
  | _ => false

/-- The aligned value `e & -16`. -/
def align16 (e : Nat) : Nat := e &&& toU64 (-16)

/-- The machine in which the slow signature handler calls the resolver: esp
and c_rarg3 hold the aligned esp, sp has been lowered by 18 and then 2 words,
and the entry lr is stored at sp. -/
def slow_call_state (m : Machine) : Machine :=
  let a := align16 (getX m esp)
  let sp1 := add64 a (toU64 (-144))
  let sp2 := add64 sp1 (toU64 (-16))
  let m4 := setX (setX (setX (setX m esp a) c_rarg3 a) sp sp1) sp sp2
  { m4 with mem := storeLE m.mem sp2 (getX m lr) 8 }

/-- The machine after the three items that follow the resolver call (reload of
lr, release of two words, load of the float/double identifiers), from the
machine `m1` in which the resolver returned. -/
def slow_reloaded (m1 : Machine) : Machine :=
  let s1 := add64 (getX m1 sp) (toU64 16)
  setX (setX (setX m1 lr (load64 m1.mem (getX m1 sp))) sp s1)
    c_rarg3 (load32 m1.mem (add64 s1 (toU64 72)))

/-- Effect of the block of the floating-point loop for argument `i`: t0
receives the masked identifiers and `g_FPArgReg i` is loaded once, as a double
when the mask is nonzero and as a float otherwise. -/
def fp_block_post (i : Nat) (s : State) : State :=
  let t := getX s.m c_rarg3 &&& toU64 (2 ^ i)
  let a := add64 (getX s.m sp) (toU64 ((10 + (i : Int)) * wordSize))
  if t ≠ 0 then
    { pc := s.pc + 7, m := setF (setX s.m t0 t) (g_FPArgReg i) (load64 s.m.mem a),
      trace := s.trace ++ [.fp_load (g_FPArgReg i) true a] }
  else
    { pc := s.pc + 7, m := setF (setX s.m t0 t) (g_FPArgReg i) (nanbox (load32 s.m.mem a)),
      trace := s.trace ++ [.fp_load (g_FPArgReg i) false a] }

/-- Effect of the first `n` blocks of the floating-point loop. -/
def fp_loop_post (n : Nat) (s : State) : State :=
  (List.range n).foldl (fun s i => fp_block_post i s) s

/-- Effect of the integer-register loop (arguments 1 to 7) followed by the
release of the 18 words: every load reads the memory and the sp of the state
`s` in which the loop is entered. -/
def slow_epilogue_post (s : State) : State :=
  let m1 := ((List.range n_int_register_parameters_c).drop 1).foldl
    (fun m i => setX m (g_INTArgReg i)
      (load64 s.m.mem (add64 (getX s.m sp) (toU64 ((i : Int) * wordSize))))) s.m
  { pc := s.pc + 8, m := setX m1 sp (add64 (getX s.m sp) (toU64 144)), trace := s.trace }

/-- The state in which the slow signature handler executes its final `ret`,
from the machine `m1` in which the resolver returned and the events `tr`
recorded up to then. -/
def slow_final (m1 : Machine) (tr : List Event) : State :=
  slow_epilogue_post (fp_loop_post n_float_register_parameters_c
    { pc := 9, m := slow_reloaded m1, trace := tr })

/-- The machine in which the abstract-method entry calls the runtime: the
expression stack emptied (esp reloaded, saved last sp cleared), then bcp and
locals reloaded from the frame. -/
def abstract_call_state (env : Env) (m : Machine) : Machine :=
  let mem1 := storeLE m.mem (effAddr m fp (env.interpreter_frame_last_sp_offset * wordSize)) 0 8
  let m1 : Machine :=
    { setX m esp (load64 m.mem
        (effAddr m fp (env.interpreter_frame_monitor_block_top_offset * wordSize)))
      with mem := mem1 }
  setX (setX m1 xbcp (load64 mem1 (effAddr m fp (env.interpreter_frame_bcp_offset * wordSize))))
    xlocals (load64 mem1 (effAddr m fp (env.interpreter_frame_locals_offset * wordSize)))

/-- The events of a run of the abstract-method entry up to and including its
runtime call. -/
def abstract_entry_events (G : Globals) (env : Env) (m : Machine) : List Event :=
  [.empty_expression_stack,
   .store (effAddr m fp (env.interpreter_frame_last_sp_offset * wordSize)) 8,
   .restore_bcp, .restore_locals,
   .vm_call G.InterpreterRuntime_throw_AbstractMethodError [getX m xmethod]]

/-- Bit pattern of the double 2.0. -/
def double_2 : Nat := 0x4000000000000000
/-- Bit pattern of the double 10.0. -/
def double_10 : Nat := 0x4024000000000000
/-- Bit pattern of the double 1024.0. -/
def double_1024 : Nat := 0x4090000000000000

/-! ## Sample inputs -/

/-- A sample configuration: both flags on, optimized stubs installed for sin
and pow only. -/
def sampleGlobals : Globals where
  InlineIntrinsics := true
  UseFastEmptyMethods := true
  StubRoutines_dsin := 7001
  StubRoutines_dcos := 0
  StubRoutines_dtan := 0
  StubRoutines_dlog := 0
  StubRoutines_dlog10 := 0
  StubRoutines_dexp := 0
  StubRoutines_dpow := 7007
  SharedRuntime_dsin := 9001
  SharedRuntime_dcos := 9002
  SharedRuntime_dtan := 9003
  SharedRuntime_dlog := 9004
  SharedRuntime_dlog10 := 9005
  SharedRuntime_dexp := 9006
  SharedRuntime_dpow := 9007
  InterpreterRuntime_slow_signature_handler := 20000
  InterpreterRuntime_throw_AbstractMethodError := 20008
  SafepointSynchronize_address_of_state := 305422332
  normal_entry_code := fun _ => [.should_not_reach_here]

/-- A sample run-time environment: the pow routine answers 1024.0 to
(2.0, 10.0) and every other leaf routine returns its argument; leaf routines
and runtime calls keep every integer register; the resolver returns 77. -/
def sampleEnv : Env where
  fsqrt_d := fun d => d
  leaf := fun target m =>
    if target = 7007 ∧ getF m f10 = double_2 ∧ getF m f11 = double_10 then
      setF m f10 double_1024
    else m
  call_VM := fun _ _ m => some (setX m c_rarg0 77)
  interpreter_frame_monitor_block_top_offset := -10
  interpreter_frame_last_sp_offset := -4
  interpreter_frame_bcp_offset := -9
  interpreter_frame_locals_offset := -8

/-- A sample machine: esp = 0x2008, sp = 0x1000, lr = 0x5550, sender sp
x30 = 0x3000, every other register holds its own number, memory byte at `a`
is `a % 7`. -/
def sampleMachine : Machine where
  x := fun r => if r = 20 then 8200 else if r = 2 then 4096 else if r = 1 then 21840
    else if r = 30 then 12288 else r
  f := fun _ => 0
  mem := fun a => a % 7

/-- The machine in which the sample resolver returns to the slow signature
handler entered on `sampleMachine`. -/
def sampleResolved : Machine := setX (slow_call_state sampleMachine) c_rarg0 77

/-- A sample machine for pow: like `sampleMachine`, with the double 10.0
stored at esp and the double 2.0 stored at esp + 16. -/
def samplePowMachine : Machine where
  x := sampleMachine.x
  f := sampleMachine.f
  mem := fun a => if a = 8207 then 64 else if a = 8206 then 36
    else if a = 8223 then 64 else 0


/-! ## Registers and memory: basic facts -/

theorem getX_lt (m : Machine) (r : Register) : getX m r < W64 := by
  unfold getX W64
  split
  · decide
  · exact Nat.mod_lt _ (by decide)

theorem getF_lt (m : Machine) (r : FloatRegister) : getF m r < W64 := by
  unfold getF W64
  exact Nat.mod_lt _ (by decide)

theorem getX_mod (m : Machine) (r : Register) : getX m r % W64 = getX m r :=
  Nat.mod_eq_of_lt (getX_lt m r)

theorem getX_setX (m : Machine) (r q : Register) (v : Nat) :
    getX (setX m r v) q = if q = r ∧ r ≠ 0 then v % W64 else getX m q := by
  unfold getX setX
  by_cases hr : r = 0
  · subst hr; simp
  · by_cases hq : q = r
    · subst hq; simp [hr]
    · by_cases hq0 : q = 0
      · subst hq0
        have hr2 : ¬ (0 = r) := fun h => hr h.symm
        simp [hr, hr2]
      · simp [hr, hq, hq0]

theorem getF_setX (m : Machine) (r : Register) (q : FloatRegister) (v : Nat) :
    getF (setX m r v) q = getF m q := by
  unfold getF setX
  split <;> rfl

theorem getX_setF (m : Machine) (r : FloatRegister) (q : Register) (v : Nat) :
    getX (setF m r v) q = getX m q := rfl

theorem getF_setF (m : Machine) (r q : FloatRegister) (v : Nat) :
    getF (setF m r v) q = if q = r then v % W64 else getF m q := by
  unfold getF setF
  by_cases hq : q = r
  · subst hq; simp
  · simp [hq]

theorem setX_mem (m : Machine) (r : Register) (v : Nat) : (setX m r v).mem = m.mem := by
  unfold setX
  split <;> rfl

theorem setF_mem (m : Machine) (r : FloatRegister) (v : Nat) : (setF m r v).mem = m.mem := rfl

theorem loadLE_lt (mem : Nat → Nat) (n a : Nat) : loadLE mem a n < 256 ^ n := by
  induction n generalizing a with
  | zero => simp [loadLE]
  | succ k ih =>
    have h1 := ih (a + 1)
    have h2 : mem (a % W64) % 256 < 256 := Nat.mod_lt _ (by decide)
    simp only [loadLE, pow_succ]
    omega

theorem load64_lt (mem : Nat → Nat) (a : Nat) : load64 mem a < W64 := by
  have h := loadLE_lt mem 8 a
  unfold load64 W64
  norm_num at h
  exact h

theorem load64_mod (mem : Nat → Nat) (a : Nat) : load64 mem a % W64 = load64 mem a :=
  Nat.mod_eq_of_lt (load64_lt mem a)

theorem load32_lt (mem : Nat → Nat) (a : Nat) : load32 mem a < 4294967296 := by
  have h := loadLE_lt mem 4 a
  unfold load32
  norm_num at h
  exact h

theorem load32_mod (mem : Nat → Nat) (a : Nat) : load32 mem a % W64 = load32 mem a := by
  have h := load32_lt mem a
  unfold W64
  omega

theorem add64_lt (a b : Nat) : add64 a b < W64 := by
  unfold add64 W64
  exact Nat.mod_lt _ (by decide)

theorem add64_mod (a b : Nat) : add64 a b % W64 = add64 a b :=
  Nat.mod_eq_of_lt (add64_lt a b)

theorem effAddr_zero (m : Machine) (r : Register) : effAddr m r 0 = getX m r := by
  have h := getX_lt m r
  simp [effAddr, toU64, add64]
  exact Nat.mod_eq_of_lt h

theorem toU64_16 : toU64 16 = 16 := by decide
theorem toU64_72 : toU64 72 = 72 := by decide
theorem toU64_144 : toU64 144 = 144 := by decide
theorem toU64_neg16 : toU64 (-16) = 18446744073709551600 := by decide
theorem toU64_neg144 : toU64 (-144) = 18446744073709551472 := by decide

/-! ## Runs -/

theorem run_add (env : Env) (base : address) (code : List Instr) (a b : Nat) (s : State) :
    run env base code (a + b) s =
      match run env base code a s with
      | .running s1 => run env base code b s1
      | o => o := by
  induction a generalizing s with
  | zero => simp [run]
  | succ n ih =>
    rw [Nat.succ_add]
    simp only [run]
    cases h : step env base code s <;> simp [ih]

theorem run_exit_of_le (env : Env) (base : address) (code : List Instr) (a fuel : Nat)
    (s s1 : State) (t : Nat) (h : run env base code a s = .exit t s1) (hle : a ≤ fuel) :
    run env base code fuel s = .exit t s1 := by
  obtain ⟨k, rfl⟩ := Nat.exists_eq_add_of_le hle
  rw [run_add, h]

theorem run_stop_of_le (env : Env) (base : address) (code : List Instr) (a fuel : Nat)
    (s s1 : State) (h : run env base code a s = .stop s1) (hle : a ≤ fuel) :
    run env base code fuel s = .stop s1 := by
  obtain ⟨k, rfl⟩ := Nat.exists_eq_add_of_le hle
  rw [run_add, h]

theorem run_forward_exception_of_le (env : Env) (base : address) (code : List Instr)
    (a fuel : Nat) (s s1 : State) (h : run env base code a s = .forward_exception s1)
    (hle : a ≤ fuel) : run env base code fuel s = .forward_exception s1 := by
  obtain ⟨k, rfl⟩ := Nat.exists_eq_add_of_le hle
  rw [run_add, h]

/-! ## The math entries: emitted code and its runs -/

theorem math_entry_code_abs (G : Globals) (base : address) (h : G.InlineIntrinsics = true)
    (hb : base ≠ NULL) :
    math_entry_code G .java_lang_math_abs base =
      [.fld f10 esp 0, .fabs_d f10 f10, .mv sp x30, .jr lr] := by
  have hb0 : ¬ base = 0 := hb
  simp [math_entry_code, generate_math_entry, h, MacroAssembler.fresh, MacroAssembler.emit,
    MacroAssembler.pc, NULL, hb0]

theorem math_entry_code_sqrt (G : Globals) (base : address) (h : G.InlineIntrinsics = true)
    (hb : base ≠ NULL) :
    math_entry_code G .java_lang_math_sqrt base =
      [.fld f10 esp 0, .fsqrt_d f10 f10, .mv sp x30, .jr lr] := by
  have hb0 : ¬ base = 0 := hb
  simp [math_entry_code, generate_math_entry, h, MacroAssembler.fresh, MacroAssembler.emit,
    MacroAssembler.pc, NULL, hb0]

theorem math_entry_code_library (G : Globals) (kind : MethodKind) (base : address)
    (h : G.InlineIntrinsics = true) (hb : base ≠ NULL) (hk : kind ∈ library_kinds) :
    math_entry_code G kind base =
      [.fld f10 esp 0, .mv sp x30, .mv x9 lr, .mv_addr t0 (library_routine G kind),
       .jalr t0, .jr x9] := by
  have hb0 : ¬ base = 0 := hb
  simp only [library_kinds, List.mem_cons, List.mem_singleton, List.not_mem_nil, or_false] at hk
  rcases hk with rfl | rfl | rfl | rfl | rfl | rfl <;>
    simp [math_entry_code, generate_math_entry, h, MacroAssembler.fresh,
      MacroAssembler.emit, MacroAssembler.pc, NULL, hb0, library_routine]

theorem math_entry_code_pow (G : Globals) (base : address) (h : G.InlineIntrinsics = true)
    (hb : base ≠ NULL) :
    math_entry_code G .java_lang_math_pow base =
      [.mv x9 lr, .fld f10 esp 16, .fld f11 esp 0, .mv sp x30,
       .mv_addr t0 (library_routine G .java_lang_math_pow), .jalr t0, .jr x9] := by
  have hb0 : ¬ base = 0 := hb
  simp [math_entry_code, generate_math_entry, h, MacroAssembler.fresh, MacroAssembler.emit,
    MacroAssembler.pc, NULL, hb0, library_routine, stackElementSize]

theorem run_abs (env : Env) (base : address) (m : Machine) :
    run env base [.fld f10 esp 0, .fabs_d f10 f10, .mv sp x30, .jr lr] 4 (State.entry m) =
      .exit (getX m lr)
        { pc := 3
          m := setX (setF (setF m f10 (load64 m.mem (getX m esp))) f10
                 (fabs_d_bits (load64 m.mem (getX m esp)))) sp (getX m x30)
          trace := [.fp_load f10 true (getX m esp)] } := by
  simp [run, step, State.entry, effAddr_zero, getX_setX, getX_setF, getF_setF, load64_mod,
    lr, sp, x30, esp, f10]

theorem run_sqrt (env : Env) (base : address) (m : Machine) :
    run env base [.fld f10 esp 0, .fsqrt_d f10 f10, .mv sp x30, .jr lr] 4 (State.entry m) =
      .exit (getX m lr)
        { pc := 3
          m := setX (setF (setF m f10 (load64 m.mem (getX m esp))) f10
                 (env.fsqrt_d (load64 m.mem (getX m esp)))) sp (getX m x30)
          trace := [.fp_load f10 true (getX m esp)] } := by
  simp [run, step, State.entry, effAddr_zero, getX_setX, getX_setF, getF_setF, load64_mod,
    lr, sp, x30, esp, f10]

theorem run_library (env : Env) (base : address) (m : Machine) (fn : address) :
    run env base [.fld f10 esp 0, .mv sp x30, .mv x9 lr, .mv_addr t0 fn, .jalr t0, .jr x9] 6
        (State.entry m) =
      .exit (getX (env.leaf (fn % W64) (library_call_state m fn (base + 5))) x9)
        { pc := 5
          m := env.leaf (fn % W64) (library_call_state m fn (base + 5))
          trace := [.fp_load f10 true (getX m esp),
                    .leaf_call (fn % W64) (load64 m.mem (getX m esp)) (getF m f11)] } := by
  simp [run, step, State.entry, effAddr_zero, getX_setX, getX_setF, getF_setF, getF_setX,
    load64_mod, library_call_state, lr, sp, x30, esp, f10, f11, x9, t0]

theorem run_pow (env : Env) (base : address) (m : Machine) (fn : address) :
    run env base [.mv x9 lr, .fld f10 esp 16, .fld f11 esp 0, .mv sp x30, .mv_addr t0 fn,
        .jalr t0, .jr x9] 7 (State.entry m) =
      .exit (getX (env.leaf (fn % W64) (pow_call_state m fn (base + 6))) x9)
        { pc := 6
          m := env.leaf (fn % W64) (pow_call_state m fn (base + 6))
          trace := [.fp_load f10 true (add64 (getX m esp) 16),
                    .fp_load f11 true (getX m esp),
                    .leaf_call (fn % W64) (load64 m.mem (add64 (getX m esp) 16))
                      (load64 m.mem (getX m esp))] } := by
  simp [run, step, State.entry, effAddr_zero, getX_setX, getX_setF, getF_setF, getF_setX,
    setX_mem, setF_mem, load64_mod, pow_call_state, lr, sp, x30, esp, f10, f11, x9, t0]
  simp [effAddr, toU64_16, getX_setX]


/-! ## Bit-level facts -/

theorem and_two_pow_ne_zero_iff (n i : Nat) : n &&& 2 ^ i ≠ 0 ↔ n.testBit i = true := by
  constructor
  · intro h
    obtain ⟨j, hj⟩ := Nat.ne_zero_implies_bit_true h
    rw [Nat.testBit_and, Nat.testBit_two_pow] at hj
    simp only [Bool.and_eq_true, decide_eq_true_eq] at hj
    rw [hj.2]
    exact hj.1
  · intro h h0
    have h1 : (n &&& 2 ^ i).testBit i = true := by
      rw [Nat.testBit_and, Nat.testBit_two_pow_self, h]
      rfl
    rw [h0] at h1
    simp at h1

theorem and_neg16 (e : Nat) (he : e < 18446744073709551616) :
    e &&& 18446744073709551600 = 16 * (e / 16) := by
  apply Nat.eq_of_testBit_eq
  intro j
  have hmask : (18446744073709551600 : Nat) = 2 ^ 4 * (2 ^ 60 - 1) := by norm_num
  have h16 : (16 : Nat) = 2 ^ 4 := by norm_num
  rw [Nat.testBit_and, hmask, h16, Nat.testBit_mul_pow_two, Nat.testBit_mul_pow_two,
    Nat.testBit_two_pow_sub_one, ← Nat.shiftRight_eq_div_pow, Nat.testBit_shiftRight]
  by_cases h4 : j ≥ 4
  · by_cases h64 : j - 4 < 60
    · simp [h4, h64]
    · have hlt : e < 2 ^ j := by
        have : (2:Nat) ^ 64 ≤ 2 ^ j := Nat.pow_le_pow_right (by norm_num) (by omega)
        omega
      have hj : 4 + (j - 4) = j := by omega
      simp [h4, h64, hj, Nat.testBit_lt_two_pow hlt]
  · simp [h4]


theorem toU64_of_nat (n : Nat) (h : n < W64) : toU64 (n : Int) = n := by
  unfold toU64
  unfold W64 at h
  omega

theorem toU64_two_pow (i : Nat) (hi : i < 8) : toU64 (2 ^ i) = 2 ^ i := by
  interval_cases i <;> decide

theorem align16_eq (e : Nat) (he : e < W64) : align16 e = 16 * (e / 16) := by
  unfold align16
  rw [toU64_neg16]
  exact and_neg16 e he

theorem align16_lt (e : Nat) (he : e < W64) : align16 e < W64 := by
  rw [align16_eq e he]
  unfold W64 at *
  omega

theorem and_mod_W64 (m : Machine) (r : Register) (k : Nat) :
    (getX m r &&& k) % W64 = getX m r &&& k :=
  Nat.mod_eq_of_lt (Nat.lt_of_le_of_lt Nat.and_le_left (getX_lt m r))

/-! ## Stores -/

theorem storeLE_other (n : Nat) (mem : Nat → Nat) (a v q : Nat)
    (h : ∀ k, k < n → q ≠ (a + k) % W64) : storeLE mem a v n q = mem q := by
  induction n generalizing mem a v with
  | zero => rfl
  | succ k ih =>
    simp only [storeLE]
    rw [ih]
    · have h0 := h 0 (by omega)
      simp at h0
      simp [h0]
    · intro j hj
      have := h (j + 1) (by omega)
      rwa [show a + 1 + j = a + (j + 1) by omega]

theorem storeLE_at (n : Nat) (mem : Nat → Nat) (a v k : Nat) (hk : k < n) (hn : n ≤ 8) :
    storeLE mem a v n ((a + k) % W64) = v / 256 ^ k % 256 := by
  induction n generalizing mem a v k with
  | zero => omega
  | succ n ih =>
    simp only [storeLE]
    cases k with
    | zero =>
      rw [storeLE_other]
      · simp
      · intro j hj
        unfold W64
        omega
    | succ k =>
      rw [show a + (k + 1) = a + 1 + k by omega, ih _ _ _ _ (by omega) (by omega),
        Nat.div_div_eq_div_mul, pow_succ, Nat.mul_comm]

theorem load64_storeLE_same (mem : Nat → Nat) (a v : Nat) :
    load64 (storeLE mem a v 8) a = v % W64 := by
  have h0 := storeLE_at 8 mem a v 0 (by omega) (by omega)
  have h1 := storeLE_at 8 mem a v 1 (by omega) (by omega)
  have h2 := storeLE_at 8 mem a v 2 (by omega) (by omega)
  have h3 := storeLE_at 8 mem a v 3 (by omega) (by omega)
  have h4 := storeLE_at 8 mem a v 4 (by omega) (by omega)
  have h5 := storeLE_at 8 mem a v 5 (by omega) (by omega)
  have h6 := storeLE_at 8 mem a v 6 (by omega) (by omega)
  have h7 := storeLE_at 8 mem a v 7 (by omega) (by omega)
  simp only [load64, loadLE, Nat.add_assoc]
  norm_num at *
  rw [h0, h1, h2, h3, h4, h5, h6, h7]
  unfold W64
  omega


/-! ## The slow signature handler: emitted code and its runs -/

/-- The items emitted by `generate_slow_signature_handler`, written out. -/
theorem slow_signature_handler_code_eq (G : Globals) (base : address) :
    slow_signature_handler_code G base =
    [Instr.andi esp esp (-16), Instr.mv c_rarg3 esp, Instr.addi sp c_rarg3 (-144),
     Instr.addi sp sp (-16), Instr.sd lr sp 0,
     Instr.call_VM G.InterpreterRuntime_slow_signature_handler [xmethod, xlocals, c_rarg3],
     Instr.ld lr sp 0, Instr.addi sp sp 16, Instr.lwu c_rarg3 sp 72, Instr.andi t0 c_rarg3 1,
     Instr.bnez t0 (Label.d 0), Instr.flw 10 sp 80, Instr.j (Label.done 0),
     Instr.bind (Label.d 0), Instr.fld 10 sp 80, Instr.bind (Label.done 0),
     Instr.andi t0 c_rarg3 2, Instr.bnez t0 (Label.d 1), Instr.flw 11 sp 88,
     Instr.j (Label.done 1), Instr.bind (Label.d 1), Instr.fld 11 sp 88,
     Instr.bind (Label.done 1), Instr.andi t0 c_rarg3 4, Instr.bnez t0 (Label.d 2),
     Instr.flw 12 sp 96, Instr.j (Label.done 2), Instr.bind (Label.d 2), Instr.fld 12 sp 96,
     Instr.bind (Label.done 2), Instr.andi t0 c_rarg3 8, Instr.bnez t0 (Label.d 3),
     Instr.flw 13 sp 104, Instr.j (Label.done 3), Instr.bind (Label.d 3), Instr.fld 13 sp 104,
     Instr.bind (Label.done 3), Instr.andi t0 c_rarg3 16, Instr.bnez t0 (Label.d 4),
     Instr.flw 14 sp 112, Instr.j (Label.done 4), Instr.bind (Label.d 4), Instr.fld 14 sp 112,
     Instr.bind (Label.done 4), Instr.andi t0 c_rarg3 32, Instr.bnez t0 (Label.d 5),
     Instr.flw 15 sp 120, Instr.j (Label.done 5), Instr.bind (Label.d 5), Instr.fld 15 sp 120,
     Instr.bind (Label.done 5), Instr.andi t0 c_rarg3 64, Instr.bnez t0 (Label.d 6),
     Instr.flw 16 sp 128, Instr.j (Label.done 6), Instr.bind (Label.d 6), Instr.fld 16 sp 128,
     Instr.bind (Label.done 6), Instr.andi t0 c_rarg3 128, Instr.bnez t0 (Label.d 7),
     Instr.flw 17 sp 136, Instr.j (Label.done 7), Instr.bind (Label.d 7), Instr.fld 17 sp 136,
     Instr.bind (Label.done 7), Instr.ld 11 sp 8, Instr.ld 12 sp 16, Instr.ld 13 sp 24,
     Instr.ld 14 sp 32, Instr.ld 15 sp 40, Instr.ld 16 sp 48, Instr.ld 17 sp 56,
     Instr.addi sp sp 144, Instr.ret] := by
  simp [slow_signature_handler_code, generate_slow_signature_handler, MacroAssembler.fresh,
    MacroAssembler.emit, n_float_register_parameters_c, n_int_register_parameters_c,
    List.range_succ, g_FPArgReg, g_INTArgReg, wordSize]

theorem slow_fetch_block (G : Globals) (base : address) (i : Nat) (hi : i < 8) :
    (slow_signature_handler_code G base)[9 + 7 * i]? =
      some (.andi t0 c_rarg3 (2 ^ i)) ∧
    (slow_signature_handler_code G base)[9 + 7 * i + 1]? = some (.bnez t0 (.d i)) ∧
    (slow_signature_handler_code G base)[9 + 7 * i + 2]? =
      some (.flw (g_FPArgReg i) sp ((10 + (i : Int)) * wordSize)) ∧
    (slow_signature_handler_code G base)[9 + 7 * i + 3]? = some (.j (.done i)) ∧
    (slow_signature_handler_code G base)[9 + 7 * i + 4]? = some (.bind (.d i)) ∧
    (slow_signature_handler_code G base)[9 + 7 * i + 5]? =
      some (.fld (g_FPArgReg i) sp ((10 + (i : Int)) * wordSize)) ∧
    (slow_signature_handler_code G base)[9 + 7 * i + 6]? = some (.bind (.done i)) ∧
    findLabel (slow_signature_handler_code G base) (.d i) = 9 + 7 * i + 4 ∧
    findLabel (slow_signature_handler_code G base) (.done i) = 9 + 7 * i + 6 := by
  rw [slow_signature_handler_code_eq]
  interval_cases i <;>
    simp [findLabel, List.findIdx_cons, Instr.isBind, g_FPArgReg, wordSize]

theorem run_fp_block (env : Env) (base : address) (code : List Instr) (i : Nat)
    (s : State)
    (h0 : code[s.pc]? = some (.andi t0 c_rarg3 (2 ^ i)))
    (h1 : code[s.pc + 1]? = some (.bnez t0 (.d i)))
    (h2 : code[s.pc + 2]? = some (.flw (g_FPArgReg i) sp ((10 + (i : Int)) * wordSize)))
    (h3 : code[s.pc + 3]? = some (.j (.done i)))
    (h4 : code[s.pc + 4]? = some (.bind (.d i)))
    (h5 : code[s.pc + 5]? = some (.fld (g_FPArgReg i) sp ((10 + (i : Int)) * wordSize)))
    (h6 : code[s.pc + 6]? = some (.bind (.done i)))
    (hd : findLabel code (.d i) = s.pc + 4)
    (hdone : findLabel code (.done i) = s.pc + 6) :
    run env base code 5 s = .running (fp_block_post i s) := by
  obtain ⟨pc, m, tr⟩ := s
  simp only at h0 h1 h2 h3 h4 h5 h6 hd hdone
  simp only [fp_block_post]
  by_cases hb : getX m c_rarg3 &&& toU64 (2 ^ i) = 0
  · simp [run, step, h0, h1, h2, h3, h6, hdone, hb, getX_setX, effAddr, setX_mem, t0, sp]
  · simp [run, step, h0, h1, h4, h5, h6, hd, hb, getX_setX, and_mod_W64, effAddr, setX_mem,
      t0, sp]

theorem fp_block_post_pc (i : Nat) (s : State) : (fp_block_post i s).pc = s.pc + 7 := by
  simp only [fp_block_post]
  split <;> rfl

theorem fp_loop_post_succ (n : Nat) (s : State) :
    fp_loop_post (n + 1) s = fp_block_post n (fp_loop_post n s) := by
  simp [fp_loop_post, List.range_succ, List.foldl_append]

theorem fp_loop_post_pc (n : Nat) (s : State) : (fp_loop_post n s).pc = s.pc + 7 * n := by
  induction n with
  | zero => rfl
  | succ n ih =>
    rw [fp_loop_post_succ, fp_block_post_pc, ih]
    omega

theorem run_fp_loop (G : Globals) (env : Env) (base : address) (n : Nat) (hn : n ≤ 8)
    (s : State) (hpc : s.pc = 9) :
    run env base (slow_signature_handler_code G base) (5 * n) s =
      .running (fp_loop_post n s) := by
  induction n with
  | zero => simp [run, fp_loop_post]
  | succ n ih =>
    rw [show 5 * (n + 1) = 5 * n + 5 by omega, run_add, ih (by omega)]
    simp only []
    rw [fp_loop_post_succ]
    have hp : (fp_loop_post n s).pc = 9 + 7 * n := by rw [fp_loop_post_pc, hpc]
    obtain ⟨h0, h1, h2, h3, h4, h5, h6, hd, hdone⟩ := slow_fetch_block G base n (by omega)
    rw [← hp] at h0 h1 h2 h3 h4 h5 h6 hd hdone
    exact run_fp_block env base _ n _ h0 h1 h2 h3 h4 h5 h6 hd hdone

theorem toU64_fp_slot (i : Nat) (hi : i < 8) :
    toU64 ((10 + (i : Int)) * wordSize) = 8 * (10 + i) := by
  have h : ((10 + (i : Int)) * wordSize) = ((8 * (10 + i) : Nat) : Int) := by
    simp [wordSize]
    ring
  rw [h, toU64_of_nat]
  unfold W64
  omega

theorem fp_block_post_getX (i : Nat) (s : State) (r : Register) (hr : r ≠ t0) :
    getX (fp_block_post i s).m r = getX s.m r := by
  simp only [fp_block_post]
  split <;> simp [getX_setF, getX_setX, hr]

theorem fp_block_post_mem (i : Nat) (s : State) : (fp_block_post i s).m.mem = s.m.mem := by
  simp only [fp_block_post]
  split <;> simp [setF_mem, setX_mem]

theorem fp_block_post_trace (i : Nat) (hi : i < 8) (s : State) :
    (fp_block_post i s).trace = s.trace ++
      [.fp_load (g_FPArgReg i) ((getX s.m c_rarg3).testBit i)
        (add64 (getX s.m sp) (8 * (10 + i)))] := by
  simp only [fp_block_post, toU64_fp_slot i hi, toU64_two_pow i hi]
  by_cases hb : (getX s.m c_rarg3).testBit i = true
  · have := (and_two_pow_ne_zero_iff (getX s.m c_rarg3) i).mpr hb
    simp [this, hb]
  · have : ¬ (getX s.m c_rarg3 &&& 2 ^ i ≠ 0) := fun h =>
      hb ((and_two_pow_ne_zero_iff (getX s.m c_rarg3) i).mp h)
    simp only [ne_eq, Bool.not_eq_true] at this hb
    simp [this, hb]

theorem fp_loop_post_getX (n : Nat) (s : State) (r : Register) (hr : r ≠ t0) :
    getX (fp_loop_post n s).m r = getX s.m r := by
  induction n with
  | zero => rfl
  | succ n ih => rw [fp_loop_post_succ, fp_block_post_getX _ _ _ hr, ih]

theorem fp_loop_post_mem (n : Nat) (s : State) : (fp_loop_post n s).m.mem = s.m.mem := by
  induction n with
  | zero => rfl
  | succ n ih => rw [fp_loop_post_succ, fp_block_post_mem, ih]

theorem fp_loop_post_trace (n : Nat) (hn : n ≤ 8) (s : State) :
    (fp_loop_post n s).trace = s.trace ++
      (List.range n).map (fun i => Event.fp_load (g_FPArgReg i)
        ((getX s.m c_rarg3).testBit i) (add64 (getX s.m sp) (8 * (10 + i)))) := by
  induction n with
  | zero => simp [fp_loop_post]
  | succ n ih =>
    rw [fp_loop_post_succ, fp_block_post_trace n (by omega), ih (by omega),
      fp_loop_post_getX _ _ _ (by decide), fp_loop_post_getX _ _ _ (by decide)]
    simp [List.range_succ]


theorem run_slow_to_call (G : Globals) (env : Env) (base : address) (m : Machine) :
    run env base (slow_signature_handler_code G base) 5 (State.entry m) =
      .running { pc := 5, m := slow_call_state m,
                 trace := [.store (getX (slow_call_state m) sp) 8] } := by
  have hx : ∀ (m4 : Machine) (mem : Nat → Nat) (q : Register),
      getX { m4 with mem := mem } q = getX m4 q := fun _ _ _ => rfl
  rw [slow_signature_handler_code_eq]
  simp [run, step, State.entry, slow_call_state, effAddr_zero, getX_setF, setX_mem, getX_setX,
    hx, and_mod_W64, add64_mod, align16, lr, sp, esp, c_rarg3]

theorem slow_call_state_x (m : Machine) (r : Register) :
    getX (slow_call_state m) r =
      if r = sp then sub64 (align16 (getX m esp)) 160
      else if r = c_rarg3 ∨ r = esp then align16 (getX m esp)
      else getX m r := by
  have ha : align16 (getX m esp) < W64 := align16_lt _ (getX_lt m esp)
  have hx : ∀ (m4 : Machine) (mem : Nat → Nat) (q : Register),
      getX { m4 with mem := mem } q = getX m4 q := fun _ _ _ => rfl
  have hmod : align16 (getX m esp) % W64 = align16 (getX m esp) := Nat.mod_eq_of_lt ha
  simp only [slow_call_state, hx, getX_setX, add64_mod, hmod]
  by_cases h2 : r = sp
  · subst h2
    simp [sp, sub64, add64, toU64_neg144, toU64_neg16]
    unfold W64 at *
    omega
  · by_cases h13 : r = c_rarg3
    · subst h13
      simp [sp, c_rarg3, esp]
    · by_cases h20 : r = esp
      · subst h20
        simp [sp, c_rarg3, esp]
      · simp [h2, h13, h20]

theorem slow_call_state_sp (m : Machine) :
    getX (slow_call_state m) sp = sub64 (align16 (getX m esp)) 160 := by
  rw [slow_call_state_x]
  simp

theorem slow_call_state_lr_slot (m : Machine) :
    load64 (slow_call_state m).mem (getX (slow_call_state m) sp) = getX m lr := by
  have hx : ∀ (m4 : Machine) (mem : Nat → Nat) (q : Register),
      getX { m4 with mem := mem } q = getX m4 q := fun _ _ _ => rfl
  have h : (slow_call_state m).mem =
      storeLE m.mem (getX (slow_call_state m) sp) (getX m lr) 8 := by
    simp [slow_call_state, getX_setX, hx, add64_mod, sp]
  rw [h, load64_storeLE_same, getX_mod]

theorem slow_call_args (m : Machine) :
    [xmethod, xlocals, c_rarg3].map (getX (slow_call_state m)) =
      [getX m xmethod, getX m xlocals, align16 (getX m esp)] := by
  simp [slow_call_state_x, xmethod, xlocals, c_rarg3, sp, esp]

theorem run_slow_call (G : Globals) (env : Env) (base : address) (m m1 : Machine)
    (tr : List Event)
    (hcall : env.call_VM G.InterpreterRuntime_slow_signature_handler
      [getX m xmethod, getX m xlocals, align16 (getX m esp)] (slow_call_state m) = some m1) :
    run env base (slow_signature_handler_code G base) 4
        { pc := 5, m := slow_call_state m, trace := tr } =
      .running { pc := 9, m := slow_reloaded m1,
                 trace := tr ++ [.vm_call G.InterpreterRuntime_slow_signature_handler
                   [getX m xmethod, getX m xlocals, align16 (getX m esp)]] } := by
  have hargs := slow_call_args m
  simp only [List.map] at hargs
  rw [slow_signature_handler_code_eq]
  simp [run, step, hargs, hcall, slow_reloaded, effAddr, effAddr_zero, getX_setX, setX_mem,
    add64_mod, lr, sp]
  simp [add64, toU64, getX_mod]

theorem run_slow_epilogue (G : Globals) (env : Env) (base : address) (s : State)
    (hpc : s.pc = 65) :
    run env base (slow_signature_handler_code G base) 9 s =
      .exit (getX (slow_epilogue_post s).m lr) (slow_epilogue_post s) := by
  obtain ⟨pc, m, tr⟩ := s
  simp only at hpc
  subst hpc
  rw [slow_signature_handler_code_eq]
  simp [run, step, slow_epilogue_post, n_int_register_parameters_c, List.range_succ,
    g_INTArgReg, wordSize, effAddr, getX_setX, setX_mem, sp, lr]

/-- The whole run of the slow signature handler when the resolver returns. -/
theorem run_slow_handler (G : Globals) (env : Env) (base : address) (m m1 : Machine)
    (hcall : env.call_VM G.InterpreterRuntime_slow_signature_handler
      [getX m xmethod, getX m xlocals, align16 (getX m esp)] (slow_call_state m) = some m1) :
    run env base (slow_signature_handler_code G base) 58 (State.entry m) =
      .exit
        (getX (slow_final m1 [.store (getX (slow_call_state m) sp) 8,
          .vm_call G.InterpreterRuntime_slow_signature_handler
            [getX m xmethod, getX m xlocals, align16 (getX m esp)]]).m lr)
        (slow_final m1 [.store (getX (slow_call_state m) sp) 8,
          .vm_call G.InterpreterRuntime_slow_signature_handler
            [getX m xmethod, getX m xlocals, align16 (getX m esp)]]) := by
  rw [show 58 = 5 + (4 + (5 * 8 + 9)) by rfl, run_add, run_slow_to_call]
  simp only []
  rw [run_add, run_slow_call G env base m m1 _ hcall]
  simp only []
  rw [run_add, run_fp_loop G env base 8 (le_refl 8) _ rfl]
  simp only []
  rw [run_slow_epilogue G env base _ (by rw [fp_loop_post_pc])]
  rfl


theorem slow_reloaded_x (m1 : Machine) (r : Register) :
    getX (slow_reloaded m1) r =
      if r = c_rarg3 then load32 m1.mem (add64 (add64 (getX m1 sp) 16) 72)
      else if r = sp then add64 (getX m1 sp) 16
      else if r = lr then load64 m1.mem (getX m1 sp)
      else getX m1 r := by
  simp only [slow_reloaded, getX_setX, toU64_16, toU64_72, load32_mod, load64_mod, add64_mod]
  simp [c_rarg3, sp, lr]

theorem slow_reloaded_mem (m1 : Machine) : (slow_reloaded m1).mem = m1.mem := by
  simp [slow_reloaded, setX_mem]

theorem slow_epilogue_post_int (s : State) (i : Nat) (h1 : 1 ≤ i) (hi : i < 8) :
    getX (slow_epilogue_post s).m (g_INTArgReg i) =
      load64 s.m.mem (add64 (getX s.m sp) (8 * i)) := by
  interval_cases i <;>
    simp [slow_epilogue_post, n_int_register_parameters_c, List.range_succ, g_INTArgReg,
      getX_setX, wordSize, sp, load64_mod, toU64]

theorem slow_epilogue_post_sp (s : State) :
    getX (slow_epilogue_post s).m sp = add64 (getX s.m sp) 144 := by
  simp [slow_epilogue_post, getX_setX, sp, add64_mod, toU64_144]

theorem slow_epilogue_post_other (s : State) (r : Nat) (hr : r < 11) (hsp : r ≠ sp) :
    getX (slow_epilogue_post s).m r = getX s.m r := by
  have h2 : ¬ r = 2 := hsp
  have h11 : ¬ r = 11 := by omega
  have h12 : ¬ r = 12 := by omega
  have h13 : ¬ r = 13 := by omega
  have h14 : ¬ r = 14 := by omega
  have h15 : ¬ r = 15 := by omega
  have h16 : ¬ r = 16 := by omega
  have h17 : ¬ r = 17 := by omega
  simp [slow_epilogue_post, n_int_register_parameters_c, List.range_succ, g_INTArgReg,
    getX_setX, sp, h2, h11, h12, h13, h14, h15, h16, h17]

theorem slow_epilogue_post_mem (s : State) : (slow_epilogue_post s).m.mem = s.m.mem := by
  simp [slow_epilogue_post, n_int_register_parameters_c, List.range_succ, setX_mem]

theorem slow_epilogue_post_trace (s : State) : (slow_epilogue_post s).trace = s.trace := rfl

theorem add64_sub64_160_16 (a : Nat) : add64 (sub64 a 160) 16 = sub64 a (18 * 8) := by
  unfold add64 sub64 W64 at *
  omega

theorem add64_sub64_144 (a : Nat) (ha : a < W64) : add64 (sub64 a (18 * 8)) 144 = a := by
  unfold add64 sub64 W64 at *
  omega

/-- What the final state of the slow signature handler holds, in terms of the
machine `m1` in which the resolver returned. -/
theorem slow_final_facts (m1 : Machine) (tr : List Event) :
    getX (slow_final m1 tr).m lr = load64 m1.mem (getX m1 sp) ∧
    getX (slow_final m1 tr).m sp = add64 (add64 (getX m1 sp) 16) 144 ∧
    getX (slow_final m1 tr).m c_rarg0 = getX m1 c_rarg0 ∧
    (slow_final m1 tr).m.mem = m1.mem ∧
    (∀ i, 1 ≤ i → i < 8 → getX (slow_final m1 tr).m (g_INTArgReg i) =
      load64 m1.mem (add64 (add64 (getX m1 sp) 16) (8 * i))) ∧
    (slow_final m1 tr).trace = tr ++ (List.range 8).map (fun i =>
      Event.fp_load (g_FPArgReg i)
        ((load32 m1.mem (add64 (add64 (getX m1 sp) 16) 72)).testBit i)
        (add64 (add64 (getX m1 sp) 16) (8 * (10 + i)))) := by
  refine ⟨?_, ?_, ?_, ?_, ?_, ?_⟩
  · rw [slow_final, slow_epilogue_post_other _ lr (by decide) (by decide),
      fp_loop_post_getX _ _ _ (by decide), slow_reloaded_x]
    simp [lr, c_rarg3, sp]
  · rw [slow_final, slow_epilogue_post_sp, fp_loop_post_getX _ _ _ (by decide),
      slow_reloaded_x]
    simp [c_rarg3, sp]
  · rw [slow_final, slow_epilogue_post_other _ c_rarg0 (by decide) (by decide),
      fp_loop_post_getX _ _ _ (by decide), slow_reloaded_x]
    simp [lr, c_rarg3, sp, c_rarg0]
  · rw [slow_final, slow_epilogue_post_mem, fp_loop_post_mem, slow_reloaded_mem]
  · intro i h1 hi
    rw [slow_final, slow_epilogue_post_int _ i h1 hi, fp_loop_post_mem,
      fp_loop_post_getX _ _ _ (by decide), slow_reloaded_mem, slow_reloaded_x]
    simp [c_rarg3, sp]
  · rw [slow_final, slow_epilogue_post_trace, n_float_register_parameters_c,
      fp_loop_post_trace 8 (le_refl 8)]
    simp only [slow_reloaded_x]
    simp [c_rarg3, sp]

theorem fp_loads_into_slow_trace (sa ep : Nat) (args : List Nat) (b : Nat → Bool)
    (a : Nat → Nat) (i : Nat) (hi : i < 8) :
    fp_loads_into (g_FPArgReg i)
      ([Event.store sa 8, Event.vm_call ep args] ++
        (List.range 8).map (fun i => Event.fp_load (g_FPArgReg i) (b i) (a i))) =
      [Event.fp_load (g_FPArgReg i) (b i) (a i)] := by
  interval_cases i <;>
    simp [fp_loads_into, List.range_succ, List.filter_cons, Event.isFpLoadInto, g_FPArgReg]

theorem align16_facts (e : Nat) (he : e < W64) :
    16 ∣ align16 e ∧ align16 e ≤ e ∧ e - align16 e < 16 := by
  rw [align16_eq e he]
  refine ⟨Dvd.intro _ rfl, ?_, ?_⟩ <;> omega

theorem slow_code_after_call_keeps_c_rarg0 (G : Globals) (base : address) :
    ∀ instr ∈ (slow_signature_handler_code G base).drop 6, instr.writes c_rarg0 = false := by
  rw [slow_signature_handler_code_eq]
  simp [Instr.writes, c_rarg0, c_rarg3, lr, sp, t0]


theorem fabs_d_bits_mod (d : Nat) : fabs_d_bits d % W64 = fabs_d_bits d := by
  unfold fabs_d_bits W64
  omega

/-- C1: with InlineIntrinsics on, for each single-argument kind and the double
`d` stored at the address in esp on entry, the entry leaves in f10, when it
transfers control out, `fabs_d(d)` for abs, `fsqrt_d(d)` for sqrt, and for
sin/cos/tan/log/log10/exp the result of exactly one call, with `d` in f10, of
the StubRoutines routine when it is non-NULL and of the SharedRuntime routine
otherwise; so if that routine computes `F` on f10, f10 holds `F d`. -/
theorem math_entry_single_argument_result (G : Globals) (env : Env) (base : address)
    (kind : MethodKind) (m : Machine) (fuel : Nat)
    (hI : G.InlineIntrinsics = true) (hbase : base ≠ NULL)
    (hk : kind ∈ inline_kinds ++ library_kinds) (hfuel : 6 ≤ fuel) :
    ∃ t s, run env base (math_entry_code G kind base) fuel (State.entry m) = .exit t s ∧
      (kind = .java_lang_math_abs →
        getF s.m f10 = fabs_d_bits (load64 m.mem (getX m esp)) ∧ leaf_calls s.trace = []) ∧
      (kind = .java_lang_math_sqrt →
        getF s.m f10 = env.fsqrt_d (load64 m.mem (getX m esp)) % W64 ∧
        leaf_calls s.trace = []) ∧
      (kind ∈ library_kinds →
        s.m = env.leaf (library_routine G kind % W64)
                (library_call_state m (library_routine G kind) (base + 5)) ∧
        getF (library_call_state m (library_routine G kind) (base + 5)) f10 =
          load64 m.mem (getX m esp) ∧
        leaf_calls s.trace =
          [.leaf_call (library_routine G kind % W64) (load64 m.mem (getX m esp))
            (getF m f11)] ∧
        ∀ F : Nat → Nat,
          (∀ mc, getF (env.leaf (library_routine G kind % W64) mc) f10 = F (getF mc f10)) →
          getF s.m f10 = F (load64 m.mem (getX m esp))) := by
  simp only [inline_kinds, List.cons_append, List.nil_append, List.mem_cons] at hk
  rcases hk with rfl | rfl | hk
  · refine ⟨_, _, run_exit_of_le _ _ _ 4 fuel _ _ _
      (by rw [math_entry_code_abs G base hI hbase]; exact run_abs env base m) (by omega), ?_, ?_, ?_⟩
    · intro _
      simp [getF_setX, getF_setF, f10, fabs_d_bits_mod, leaf_calls, Event.isLeafCall]
    · intro h; cases h
    · intro h; simp [library_kinds] at h
  · refine ⟨_, _, run_exit_of_le _ _ _ 4 fuel _ _ _
      (by rw [math_entry_code_sqrt G base hI hbase]; exact run_sqrt env base m) (by omega), ?_, ?_, ?_⟩
    · intro h; cases h
    · intro _
      simp [getF_setX, getF_setF, f10, leaf_calls, Event.isLeafCall]
    · intro h; simp [library_kinds] at h
  · refine ⟨_, _, run_exit_of_le _ _ _ 6 fuel _ _ _
      (by rw [math_entry_code_library G kind base hI hbase hk]; exact run_library env base m _)
      hfuel, ?_, ?_, ?_⟩
    · intro h; subst h; simp [library_kinds] at hk
    · intro h; subst h; simp [library_kinds] at hk
    · intro _
      have hd : getF (library_call_state m (library_routine G kind) (base + 5)) f10 =
          load64 m.mem (getX m esp) := by
        simp [library_call_state, getF_setX, getF_setF, load64_mod]
      refine ⟨rfl, hd, by simp [leaf_calls, Event.isLeafCall], ?_⟩
      intro F hF
      simp only [hF, hd]

/-- C1 witness: the sin entry on the sample machine. -/
theorem math_entry_single_argument_result_witness :
    sampleGlobals.InlineIntrinsics = true ∧ (4096 : address) ≠ NULL ∧
    MethodKind.java_lang_math_sin ∈ inline_kinds ++ library_kinds ∧ 6 ≤ 6 ∧
    ∃ t s, run sampleEnv 4096 (math_entry_code sampleGlobals .java_lang_math_sin 4096) 6
        (State.entry sampleMachine) = .exit t s ∧
      leaf_calls s.trace =
        [.leaf_call (library_routine sampleGlobals .java_lang_math_sin % W64)
          (load64 sampleMachine.mem (getX sampleMachine esp)) (getF sampleMachine f11)] :=
  ⟨rfl, by decide, by decide, le_refl 6,
    (math_entry_single_argument_result sampleGlobals sampleEnv 4096 .java_lang_math_sin
      sampleMachine 6 rfl (by decide) (by decide) (le_refl 6)).imp fun _ ht =>
      ht.imp fun _ hs => ⟨hs.1, (hs.2.2.2 (by decide)).2.2.1⟩⟩

/-- C2: `generate_math_entry` returns a non-NULL entry point exactly when
InlineIntrinsics is on and the kind is one of abs, sqrt, sin, cos, tan, log,
log10, exp, pow; in every other case it returns NULL and leaves the code
buffer as it was. -/
theorem generate_math_entry_non_null_iff (G : Globals) (kind : MethodKind)
    (masm : MacroAssembler) (hpc : masm.pc ≠ NULL) :
    ((generate_math_entry G kind masm).1 ≠ NULL ↔
        (G.InlineIntrinsics = true ∧ kind ∈ handled_kinds)) ∧
    ((generate_math_entry G kind masm).1 = NULL → (generate_math_entry G kind masm).2 = masm) := by
  cases hI : G.InlineIntrinsics
  · simp [generate_math_entry, hI]
  · cases kind <;>
      simp [generate_math_entry, hI, hpc, handled_kinds, inline_kinds, library_kinds]

/-- C2 witness: a fresh buffer at address 4096 and the disabled fmaD kind. -/
theorem generate_math_entry_non_null_iff_witness :
    (MacroAssembler.fresh 4096).pc ≠ NULL ∧
    (generate_math_entry sampleGlobals .java_lang_math_fmaD (MacroAssembler.fresh 4096)).1 = NULL ∧
    (generate_math_entry sampleGlobals .java_lang_math_fmaD (MacroAssembler.fresh 4096)).2 =
      MacroAssembler.fresh 4096 :=
  have h := generate_math_entry_non_null_iff sampleGlobals .java_lang_math_fmaD
    (MacroAssembler.fresh 4096) (by decide)
  have h0 : (generate_math_entry sampleGlobals .java_lang_math_fmaD
      (MacroAssembler.fresh 4096)).1 = NULL := by
    by_contra hne
    exact absurd (h.1.mp hne).2 (by decide)
  ⟨by decide, h0, h.2 h0⟩

/-- C3: for the pow entry, with the exponent `e` at esp and the base `b` at
esp + 2*stackElementSize on entry, the library routine (StubRoutines::dpow if
non-NULL, else SharedRuntime::dpow) is called exactly once, with f10 = b and
f11 = e, and the machine it returns is the one the caller receives; so with
b = 2.0 and e = 10.0 a routine that answers 1024.0 to pow(2.0, 10.0) leaves
1024.0 in f10. -/
theorem math_entry_pow_arguments (G : Globals) (env : Env) (base : address) (m : Machine)
    (fuel : Nat) (hI : G.InlineIntrinsics = true) (hbase : base ≠ NULL) (hfuel : 7 ≤ fuel) :
    ∃ t s, run env base (math_entry_code G .java_lang_math_pow base) fuel (State.entry m) =
        .exit t s ∧
      s.m = env.leaf (library_routine G .java_lang_math_pow % W64)
              (pow_call_state m (library_routine G .java_lang_math_pow) (base + 6)) ∧
      getF (pow_call_state m (library_routine G .java_lang_math_pow) (base + 6)) f10 =
        load64 m.mem (add64 (getX m esp) (toU64 (2 * stackElementSize))) ∧
      getF (pow_call_state m (library_routine G .java_lang_math_pow) (base + 6)) f11 =
        load64 m.mem (getX m esp) ∧
      leaf_calls s.trace =
        [.leaf_call (library_routine G .java_lang_math_pow % W64)
          (load64 m.mem (add64 (getX m esp) (toU64 (2 * stackElementSize))))
          (load64 m.mem (getX m esp))] ∧
      (load64 m.mem (add64 (getX m esp) (toU64 (2 * stackElementSize))) = double_2 →
        load64 m.mem (getX m esp) = double_10 →
        (∀ mc, getF mc f10 = double_2 → getF mc f11 = double_10 →
          getF (env.leaf (library_routine G .java_lang_math_pow % W64) mc) f10 = double_1024) →
        getF s.m f10 = double_1024) := by
  have h16 : toU64 (2 * stackElementSize) = 16 := by decide
  rw [h16]
  have hb : getF (pow_call_state m (library_routine G .java_lang_math_pow) (base + 6)) f10 =
      load64 m.mem (add64 (getX m esp) 16) := by
    simp [pow_call_state, getF_setX, getF_setF, load64_mod, f10, f11]
  have he : getF (pow_call_state m (library_routine G .java_lang_math_pow) (base + 6)) f11 =
      load64 m.mem (getX m esp) := by
    simp [pow_call_state, getF_setX, getF_setF, load64_mod, f10, f11]
  refine ⟨_, _, run_exit_of_le _ _ _ 7 fuel _ _ _
    (by rw [math_entry_code_pow G base hI hbase]; exact run_pow env base m _) hfuel,
    rfl, hb, he, by simp [leaf_calls, Event.isLeafCall], ?_⟩
  intro h2 h10 hpow
  exact hpow _ (hb.trans h2) (he.trans h10)

theorem sample_pow_routine :
    library_routine sampleGlobals .java_lang_math_pow % W64 = 7007 := by decide

theorem sample_pow_answers (mc : Machine) (h1 : getF mc f10 = double_2)
    (h2 : getF mc f11 = double_10) :
    getF (sampleEnv.leaf (library_routine sampleGlobals .java_lang_math_pow % W64) mc) f10 =
      double_1024 := by
  rw [sample_pow_routine]
  simp [sampleEnv, h1, h2, getF_setF]
  decide

/-- C3 witness: 2.0 and 10.0 pushed in that order on the sample stack. -/
theorem math_entry_pow_arguments_witness :
    sampleGlobals.InlineIntrinsics = true ∧ (4096 : address) ≠ NULL ∧ 7 ≤ 7 ∧
    load64 samplePowMachine.mem
      (add64 (getX samplePowMachine esp) (toU64 (2 * stackElementSize))) = double_2 ∧
    load64 samplePowMachine.mem (getX samplePowMachine esp) = double_10 ∧
    ∃ t s, run sampleEnv 4096 (math_entry_code sampleGlobals .java_lang_math_pow 4096) 7
        (State.entry samplePowMachine) = .exit t s ∧ getF s.m f10 = double_1024 :=
  have hb : load64 samplePowMachine.mem
      (add64 (getX samplePowMachine esp) (toU64 (2 * stackElementSize))) = double_2 := by
    decide
  have he : load64 samplePowMachine.mem (getX samplePowMachine esp) = double_10 := by decide
  ⟨rfl, by decide, le_refl 7, hb, he,
    (math_entry_pow_arguments sampleGlobals sampleEnv 4096 samplePowMachine 7 rfl (by decide)
      (le_refl 7)).imp fun _ ht =>
      ht.imp fun _ hs => ⟨hs.1, hs.2.2.2.2.2 hb he sample_pow_answers⟩⟩

theorem math_entry_code_inline_static (G : Globals) (kind : MethodKind) (base : address)
    (hI : G.InlineIntrinsics = true) (hbase : base ≠ NULL) (hk : kind ∈ inline_kinds) :
    (math_entry_code G kind base).getLast? = some (.jr lr) ∧
    ∀ i ∈ math_entry_code G kind base, i.writes x9 = false := by
  simp only [inline_kinds, List.mem_cons, List.mem_singleton, List.not_mem_nil, or_false] at hk
  rcases hk with rfl | rfl
  · rw [math_entry_code_abs G base hI hbase]
    simp [Instr.writes, sp, x9]
  · rw [math_entry_code_sqrt G base hI hbase]
    simp [Instr.writes, sp, x9]

/-- C4: each of the nine math entries ends by transferring control to the
address that was in lr on entry, with sp equal to the sender sp that was in
x30 on entry.  abs and sqrt jump through lr itself and no emitted item writes
x9; the other seven enter the library routine with the entry lr in x9 and sp
already equal to x30, and jump through x9 afterwards, so the property holds
for every routine that preserves x9 and sp. -/
theorem math_entry_returns_to_caller (G : Globals) (env : Env) (base : address)
    (kind : MethodKind) (m : Machine) (fuel : Nat)
    (hI : G.InlineIntrinsics = true) (hbase : base ≠ NULL)
    (hk : kind ∈ handled_kinds) (hfuel : 7 ≤ fuel)
    (hcallee : kind ∉ inline_kinds → ∀ mc,
      getX (env.leaf (library_routine G kind % W64) mc) x9 = getX mc x9 ∧
      getX (env.leaf (library_routine G kind % W64) mc) sp = getX mc sp) :
    ∃ s, run env base (math_entry_code G kind base) fuel (State.entry m) =
        .exit (getX m lr) s ∧
      getX s.m sp = getX m x30 ∧
      (kind ∈ inline_kinds →
        (math_entry_code G kind base).getLast? = some (.jr lr) ∧
        (∀ i ∈ math_entry_code G kind base, i.writes x9 = false) ∧
        getX s.m x9 = getX m x9 ∧ leaf_calls s.trace = []) ∧
      (kind ∉ inline_kinds →
        (math_entry_code G kind base).getLast? = some (.jr x9) ∧
        ∃ mc, s.m = env.leaf (library_routine G kind % W64) mc ∧
          getX mc x9 = getX m lr ∧ getX mc sp = getX m x30 ∧
          ∃ a0 a1, leaf_calls s.trace =
            [.leaf_call (library_routine G kind % W64) a0 a1]) := by
  simp only [handled_kinds, inline_kinds, List.cons_append, List.nil_append, List.mem_cons,
    List.mem_append, List.mem_singleton, List.not_mem_nil, or_false] at hk hcallee ⊢
  rcases hk with rfl | rfl | (hk | rfl)
  · refine ⟨_, run_exit_of_le _ _ _ 4 fuel _ _ _
      (by rw [math_entry_code_abs G base hI hbase]; exact run_abs env base m) (by omega), ?_, ?_, ?_⟩
    · simp [getX_setX, getX_setF, getX_mod, sp, x30]
    · intro _
      have hs := math_entry_code_inline_static G .java_lang_math_abs base hI hbase
        (by simp [inline_kinds])
      refine ⟨hs.1, hs.2, ?_, ?_⟩
      · simp [getX_setX, getX_setF, getX_mod, sp, x9]
      · simp [leaf_calls, Event.isLeafCall]
    · intro h; simp at h
  · refine ⟨_, run_exit_of_le _ _ _ 4 fuel _ _ _
      (by rw [math_entry_code_sqrt G base hI hbase]; exact run_sqrt env base m) (by omega), ?_, ?_, ?_⟩
    · simp [getX_setX, getX_setF, getX_mod, sp, x30]
    · intro _
      have hs := math_entry_code_inline_static G .java_lang_math_sqrt base hI hbase
        (by simp [inline_kinds])
      refine ⟨hs.1, hs.2, ?_, ?_⟩
      · simp [getX_setX, getX_setF, getX_mod, sp, x9]
      · simp [leaf_calls, Event.isLeafCall]
    · intro h; simp at h
  · have hni : ¬ (kind = .java_lang_math_abs ∨ kind = .java_lang_math_sqrt) := by
      rintro (rfl | rfl) <;> simp [library_kinds] at hk
    have hc := hcallee hni (library_call_state m (library_routine G kind) (base + 5))
    have h9 : getX (library_call_state m (library_routine G kind) (base + 5)) x9 = getX m lr := by
      simp [library_call_state, getX_setX, getX_setF, getX_mod, lr, sp, x9, t0]
    have hsp : getX (library_call_state m (library_routine G kind) (base + 5)) sp =
        getX m x30 := by
      simp [library_call_state, getX_setX, getX_setF, getX_mod, lr, sp, x9, t0]
    have hrun6 := run_library env base m (library_routine G kind)
    rw [← math_entry_code_library G kind base hI hbase hk] at hrun6
    have hrun := run_exit_of_le _ _ _ 6 fuel _ _ _ hrun6 (by omega : 6 ≤ fuel)
    rw [hc.1, h9] at hrun
    refine ⟨_, hrun, ?_, ?_, ?_⟩
    · simp [hc.2, hsp]
    · intro h; exact absurd h hni
    · intro _
      refine ⟨by rw [math_entry_code_library G kind base hI hbase hk]; rfl, _, rfl, h9, hsp,
        _, _, rfl⟩
  · have hni : ¬ (MethodKind.java_lang_math_pow = .java_lang_math_abs ∨
        MethodKind.java_lang_math_pow = .java_lang_math_sqrt) := by simp
    have hc := hcallee hni
      (pow_call_state m (library_routine G .java_lang_math_pow) (base + 6))
    have h9 : getX (pow_call_state m (library_routine G .java_lang_math_pow) (base + 6)) x9 =
        getX m lr := by
      simp [pow_call_state, getX_setX, getX_setF, getX_mod, lr, sp, x9, t0]
    have hsp : getX (pow_call_state m (library_routine G .java_lang_math_pow) (base + 6)) sp =
        getX m x30 := by
      simp [pow_call_state, getX_setX, getX_setF, getX_mod, lr, sp, x9, t0]
    have hrun7 := run_pow env base m (library_routine G .java_lang_math_pow)
    rw [← math_entry_code_pow G base hI hbase] at hrun7
    have hrun := run_exit_of_le _ _ _ 7 fuel _ _ _ hrun7 hfuel
    rw [hc.1, h9] at hrun
    refine ⟨_, hrun, ?_, ?_, ?_⟩
    · simp [hc.2, hsp]
    · intro h; exact absurd h hni
    · intro _
      refine ⟨by rw [math_entry_code_pow G base hI hbase]; rfl, _, rfl, h9, hsp,
        _, _, rfl⟩

/-- C4 witness: the cos entry with the sample routines, which keep every
integer register. -/
theorem math_entry_returns_to_caller_witness :
    sampleGlobals.InlineIntrinsics = true ∧ (4096 : address) ≠ NULL ∧
    MethodKind.java_lang_math_cos ∈ handled_kinds ∧ 7 ≤ 7 ∧
    (∀ mc,
      getX (sampleEnv.leaf (library_routine sampleGlobals .java_lang_math_cos % W64) mc) x9 =
        getX mc x9 ∧
      getX (sampleEnv.leaf (library_routine sampleGlobals .java_lang_math_cos % W64) mc) sp =
        getX mc sp) ∧
    ∃ s, run sampleEnv 4096 (math_entry_code sampleGlobals .java_lang_math_cos 4096) 7
        (State.entry sampleMachine) = .exit (getX sampleMachine lr) s ∧
      getX s.m sp = getX sampleMachine x30 :=
  have hcallee : ∀ mc,
      getX (sampleEnv.leaf (library_routine sampleGlobals .java_lang_math_cos % W64) mc) x9 =
        getX mc x9 ∧
      getX (sampleEnv.leaf (library_routine sampleGlobals .java_lang_math_cos % W64) mc) sp =
        getX mc sp := by
    intro mc
    have h : library_routine sampleGlobals .java_lang_math_cos % W64 = 9002 := by decide
    rw [h]
    simp [sampleEnv]
  ⟨rfl, by decide, by decide, le_refl 7, hcallee,
    (math_entry_returns_to_caller sampleGlobals sampleEnv 4096 .java_lang_math_cos
      sampleMachine 7 rfl (by decide) (by decide) (le_refl 7) (fun _ => hcallee)).imp
      fun _ hs => ⟨hs.1, hs.2.1⟩⟩


theorem sample_resolver_call :
    sampleEnv.call_VM sampleGlobals.InterpreterRuntime_slow_signature_handler
      [getX sampleMachine xmethod, getX sampleMachine xlocals,
        align16 (getX sampleMachine esp)] (slow_call_state sampleMachine) =
      some sampleResolved := rfl

theorem sample_resolver_sp :
    getX sampleResolved sp = getX (slow_call_state sampleMachine) sp := by
  simp [sampleResolved, getX_setX, sp, c_rarg0]

theorem sample_resolver_word :
    load64 sampleResolved.mem (getX sampleResolved sp) =
      load64 (slow_call_state sampleMachine).mem (getX (slow_call_state sampleMachine) sp) := by
  rw [sample_resolver_sp]
  simp [sampleResolved, setX_mem]

/-- C5: in the slow signature handler, with S = (entry esp & -16) - 18*wordSize,
when the handler returns every integer argument register g_INTArgReg[i],
1 <= i < 8 (also i = 3, the temporary c_rarg3), holds the 64-bit word at
S + i*wordSize of the memory in which the resolver returned; c_rarg0 still
holds what the resolver left in it and no item after the resolver call writes
it.  The resolver call is taken to return with sp unchanged. -/
theorem slow_signature_handler_int_registers (G : Globals) (env : Env) (base : address)
    (m m1 : Machine) (fuel : Nat)
    (hcall : env.call_VM G.InterpreterRuntime_slow_signature_handler
      [getX m xmethod, getX m xlocals, align16 (getX m esp)] (slow_call_state m) = some m1)
    (hsp : getX m1 sp = getX (slow_call_state m) sp) (hfuel : 58 ≤ fuel) :
    ∃ t s, run env base (slow_signature_handler_code G base) fuel (State.entry m) =
        .exit t s ∧
      (∀ i, 1 ≤ i → i < n_int_register_parameters_c →
        getX s.m (g_INTArgReg i) =
          load64 m1.mem (add64 (sub64 (align16 (getX m esp)) (18 * 8)) (i * 8))) ∧
      getX s.m c_rarg0 = getX m1 c_rarg0 ∧
      (∀ instr ∈ (slow_signature_handler_code G base).drop 6,
        instr.writes c_rarg0 = false) := by
  have hrun := run_exit_of_le _ _ _ 58 fuel _ _ _ (run_slow_handler G env base m m1 hcall) hfuel
  have hfacts := slow_final_facts m1
    [.store (getX (slow_call_state m) sp) 8,
     .vm_call G.InterpreterRuntime_slow_signature_handler
       [getX m xmethod, getX m xlocals, align16 (getX m esp)]]
  generalize slow_final m1 _ = sF at hrun hfacts
  obtain ⟨_, _, h0, _, hint, _⟩ := hfacts
  refine ⟨_, sF, hrun, ?_, h0, slow_code_after_call_keeps_c_rarg0 G base⟩
  intro i h1 hi
  rw [hint i h1 hi, hsp, slow_call_state_sp, add64_sub64_160_16, Nat.mul_comm i 8]

/-- C5 witness: the sample machine and the sample resolver. -/
theorem slow_signature_handler_int_registers_witness :
    sampleEnv.call_VM sampleGlobals.InterpreterRuntime_slow_signature_handler
      [getX sampleMachine xmethod, getX sampleMachine xlocals,
        align16 (getX sampleMachine esp)] (slow_call_state sampleMachine) =
      some sampleResolved ∧
    getX sampleResolved sp = getX (slow_call_state sampleMachine) sp ∧ 58 ≤ 58 ∧
    ∃ t s, run sampleEnv 4096 (slow_signature_handler_code sampleGlobals 4096) 58
        (State.entry sampleMachine) = .exit t s ∧
      getX s.m c_rarg3 =
        load64 sampleResolved.mem
          (add64 (sub64 (align16 (getX sampleMachine esp)) (18 * 8)) (3 * 8)) :=
  ⟨sample_resolver_call, sample_resolver_sp, le_refl 58,
    (slow_signature_handler_int_registers sampleGlobals sampleEnv 4096 sampleMachine
      sampleResolved 58 sample_resolver_call sample_resolver_sp (le_refl 58)).imp fun _ ht =>
      ht.imp fun _ hs => ⟨hs.1, hs.2.1 3 (by decide) (by decide)⟩⟩

/-- C6: in the slow signature handler, with S = (entry esp & -16) - 18*wordSize
and ids the 32-bit word at S + 9*wordSize, for every i < 8 exactly one load
into g_FPArgReg[i] is executed, from address S + (10 + i)*wordSize: a
double-precision load if bit i of ids is 1 and a single-precision load if it
is 0.  The resolver call is taken to return with sp unchanged. -/
theorem slow_signature_handler_fp_loads (G : Globals) (env : Env) (base : address)
    (m m1 : Machine) (fuel : Nat)
    (hcall : env.call_VM G.InterpreterRuntime_slow_signature_handler
      [getX m xmethod, getX m xlocals, align16 (getX m esp)] (slow_call_state m) = some m1)
    (hsp : getX m1 sp = getX (slow_call_state m) sp) (hfuel : 58 ≤ fuel) :
    ∃ t s, run env base (slow_signature_handler_code G base) fuel (State.entry m) =
        .exit t s ∧
      ∀ i, i < n_float_register_parameters_c →
        fp_loads_into (g_FPArgReg i) s.trace =
          [.fp_load (g_FPArgReg i)
            ((load32 m1.mem
              (add64 (sub64 (align16 (getX m esp)) (18 * 8)) (9 * 8))).testBit i)
            (add64 (sub64 (align16 (getX m esp)) (18 * 8)) ((10 + i) * 8))] := by
  have hrun := run_exit_of_le _ _ _ 58 fuel _ _ _ (run_slow_handler G env base m m1 hcall) hfuel
  have hfacts := slow_final_facts m1
    [.store (getX (slow_call_state m) sp) 8,
     .vm_call G.InterpreterRuntime_slow_signature_handler
       [getX m xmethod, getX m xlocals, align16 (getX m esp)]]
  generalize slow_final m1 _ = sF at hrun hfacts
  obtain ⟨_, _, _, _, _, htr⟩ := hfacts
  refine ⟨_, sF, hrun, ?_⟩
  intro i hi
  rw [htr, hsp, slow_call_state_sp, add64_sub64_160_16]
  rw [fp_loads_into_slow_trace _ _ _ _ _ i hi, Nat.mul_comm (10 + i) 8]

/-- C6 witness: the sample machine and the sample resolver. -/
theorem slow_signature_handler_fp_loads_witness :
    sampleEnv.call_VM sampleGlobals.InterpreterRuntime_slow_signature_handler
      [getX sampleMachine xmethod, getX sampleMachine xlocals,
        align16 (getX sampleMachine esp)] (slow_call_state sampleMachine) =
      some sampleResolved ∧
    getX sampleResolved sp = getX (slow_call_state sampleMachine) sp ∧ 58 ≤ 58 ∧
    ∃ t s, run sampleEnv 4096 (slow_signature_handler_code sampleGlobals 4096) 58
        (State.entry sampleMachine) = .exit t s ∧
      fp_loads_into (g_FPArgReg 0) s.trace =
        [.fp_load (g_FPArgReg 0)
          ((load32 sampleResolved.mem
            (add64 (sub64 (align16 (getX sampleMachine esp)) (18 * 8)) (9 * 8))).testBit 0)
          (add64 (sub64 (align16 (getX sampleMachine esp)) (18 * 8)) ((10 + 0) * 8))] :=
  ⟨sample_resolver_call, sample_resolver_sp, le_refl 58,
    (slow_signature_handler_fp_loads sampleGlobals sampleEnv 4096 sampleMachine
      sampleResolved 58 sample_resolver_call sample_resolver_sp (le_refl 58)).imp fun _ ht =>
      ht.imp fun _ hs => ⟨hs.1, hs.2 0 (by decide)⟩⟩

/-- C7, as stated, fails: on the sample machine (entry sp = 4096, entry
esp = 8200) the resolver returns with sp and the word at sp unchanged, yet at
the final `ret` sp is 8192, not the entry sp. -/
theorem slow_signature_handler_sp_not_entry_sp :
    sampleEnv.call_VM sampleGlobals.InterpreterRuntime_slow_signature_handler
      [getX sampleMachine xmethod, getX sampleMachine xlocals,
        align16 (getX sampleMachine esp)] (slow_call_state sampleMachine) =
      some sampleResolved ∧
    getX sampleResolved sp = getX (slow_call_state sampleMachine) sp ∧
    load64 sampleResolved.mem (getX sampleResolved sp) =
      load64 (slow_call_state sampleMachine).mem (getX (slow_call_state sampleMachine) sp) ∧
    ∃ t s, run sampleEnv 4096 (slow_signature_handler_code sampleGlobals 4096) 58
        (State.entry sampleMachine) = .exit t s ∧
      getX s.m sp = 8192 ∧ getX sampleMachine sp = 4096 ∧ getX s.m sp ≠ getX sampleMachine sp := by
  have hrun := run_slow_handler sampleGlobals sampleEnv 4096 sampleMachine sampleResolved
    sample_resolver_call
  have hfacts := slow_final_facts sampleResolved
    [.store (getX (slow_call_state sampleMachine) sp) 8,
     .vm_call sampleGlobals.InterpreterRuntime_slow_signature_handler
       [getX sampleMachine xmethod, getX sampleMachine xlocals,
         align16 (getX sampleMachine esp)]]
  generalize slow_final sampleResolved _ = sF at hrun hfacts
  obtain ⟨_, hsp, _⟩ := hfacts
  have h1 : getX sampleMachine sp = 4096 := by decide
  have h2 : align16 (getX sampleMachine esp) = 8192 := by decide
  rw [sample_resolver_sp, slow_call_state_sp, add64_sub64_160_16, add64_sub64_144 _
    (align16_lt _ (getX_lt _ _)), h2] at hsp
  refine ⟨sample_resolver_call, sample_resolver_sp, sample_resolver_word, _, sF, hrun,
    hsp, h1, ?_⟩
  rw [hsp, h1]
  decide

/-- C7, amended: provided the resolver call returns with sp unchanged and
without modifying the word at sp, the final `ret` of the handler transfers control
to the address that was in lr on entry, with lr holding its entry value and sp
holding the aligned entry esp (entry esp & -16); sp therefore holds its entry
value exactly when the entry sp equals the aligned entry esp. -/
theorem slow_signature_handler_restores_lr (G : Globals) (env : Env) (base : address)
    (m m1 : Machine) (fuel : Nat)
    (hcall : env.call_VM G.InterpreterRuntime_slow_signature_handler
      [getX m xmethod, getX m xlocals, align16 (getX m esp)] (slow_call_state m) = some m1)
    (hsp : getX m1 sp = getX (slow_call_state m) sp)
    (hword : load64 m1.mem (getX m1 sp) =
      load64 (slow_call_state m).mem (getX (slow_call_state m) sp))
    (hfuel : 58 ≤ fuel) :
    ∃ s, run env base (slow_signature_handler_code G base) fuel (State.entry m) =
        .exit (getX m lr) s ∧
      getX s.m lr = getX m lr ∧
      getX s.m sp = align16 (getX m esp) ∧
      (getX s.m sp = getX m sp ↔ getX m sp = align16 (getX m esp)) := by
  have hrun := run_exit_of_le _ _ _ 58 fuel _ _ _ (run_slow_handler G env base m m1 hcall) hfuel
  have hfacts := slow_final_facts m1
    [.store (getX (slow_call_state m) sp) 8,
     .vm_call G.InterpreterRuntime_slow_signature_handler
       [getX m xmethod, getX m xlocals, align16 (getX m esp)]]
  generalize slow_final m1 _ = sF at hrun hfacts
  obtain ⟨hlr, hfsp, _⟩ := hfacts
  rw [hword, slow_call_state_lr_slot] at hlr
  rw [hsp, slow_call_state_sp, add64_sub64_160_16, add64_sub64_144 _
    (align16_lt _ (getX_lt _ _))] at hfsp
  rw [hlr] at hrun
  refine ⟨sF, hrun, hlr, hfsp, ?_⟩
  rw [hfsp]
  exact eq_comm

/-- C7 witness: the sample machine and the sample resolver. -/
theorem slow_signature_handler_restores_lr_witness :
    sampleEnv.call_VM sampleGlobals.InterpreterRuntime_slow_signature_handler
      [getX sampleMachine xmethod, getX sampleMachine xlocals,
        align16 (getX sampleMachine esp)] (slow_call_state sampleMachine) =
      some sampleResolved ∧
    getX sampleResolved sp = getX (slow_call_state sampleMachine) sp ∧
    load64 sampleResolved.mem (getX sampleResolved sp) =
      load64 (slow_call_state sampleMachine).mem (getX (slow_call_state sampleMachine) sp) ∧
    58 ≤ 58 ∧
    ∃ s, run sampleEnv 4096 (slow_signature_handler_code sampleGlobals 4096) 58
        (State.entry sampleMachine) = .exit (getX sampleMachine lr) s ∧
      getX s.m lr = getX sampleMachine lr ∧
      getX s.m sp = align16 (getX sampleMachine esp) :=
  ⟨sample_resolver_call, sample_resolver_sp, sample_resolver_word, le_refl 58,
    (slow_signature_handler_restores_lr sampleGlobals sampleEnv 4096 sampleMachine
      sampleResolved 58 sample_resolver_call sample_resolver_sp sample_resolver_word
      (le_refl 58)).imp fun _ hs => ⟨hs.1, hs.2.1, hs.2.2.1⟩⟩

/-- C10: for every entry value e of esp the handler sets esp to a = e & -16,
a multiple of 16 with a <= e and e - a < 16, passes a as the third resolver
argument, calls the resolver with sp exactly 20 words below a, and releases
2 + 18 words, so that at its final `ret` sp = a, provided the resolver call
returns with sp unchanged. -/
theorem slow_signature_handler_alignment (G : Globals) (env : Env) (base : address)
    (m m1 : Machine) (fuel : Nat)
    (hcall : env.call_VM G.InterpreterRuntime_slow_signature_handler
      [getX m xmethod, getX m xlocals, align16 (getX m esp)] (slow_call_state m) = some m1)
    (hsp : getX m1 sp = getX (slow_call_state m) sp) (hfuel : 58 ≤ fuel) :
    16 ∣ align16 (getX m esp) ∧ align16 (getX m esp) ≤ getX m esp ∧
    getX m esp - align16 (getX m esp) < 16 ∧
    getX (slow_call_state m) esp = align16 (getX m esp) ∧
    getX (slow_call_state m) c_rarg3 = align16 (getX m esp) ∧
    getX (slow_call_state m) sp = sub64 (align16 (getX m esp)) (20 * 8) ∧
    getX (slow_reloaded m1) sp = sub64 (align16 (getX m esp)) (18 * 8) ∧
    ∃ t s, run env base (slow_signature_handler_code G base) fuel (State.entry m) =
        .exit t s ∧
      getX s.m sp = align16 (getX m esp) ∧
      s.trace.take 2 =
        [.store (sub64 (align16 (getX m esp)) (20 * 8)) 8,
         .vm_call G.InterpreterRuntime_slow_signature_handler
           [getX m xmethod, getX m xlocals, align16 (getX m esp)]] := by
  have hrun := run_exit_of_le _ _ _ 58 fuel _ _ _ (run_slow_handler G env base m m1 hcall) hfuel
  have hfacts := slow_final_facts m1
    [.store (getX (slow_call_state m) sp) 8,
     .vm_call G.InterpreterRuntime_slow_signature_handler
       [getX m xmethod, getX m xlocals, align16 (getX m esp)]]
  generalize slow_final m1 _ = sF at hrun hfacts
  obtain ⟨_, hfsp, _, _, _, htr⟩ := hfacts
  rw [hsp, slow_call_state_sp, add64_sub64_160_16, add64_sub64_144 _
    (align16_lt _ (getX_lt _ _))] at hfsp
  obtain ⟨hd, hle, hlt⟩ := align16_facts (getX m esp) (getX_lt m esp)
  refine ⟨hd, hle, hlt, ?_, ?_, slow_call_state_sp m, ?_, _, sF, hrun, hfsp, ?_⟩
  · rw [slow_call_state_x]; simp [esp, sp, c_rarg3]
  · rw [slow_call_state_x]; simp [esp, sp, c_rarg3]
  · rw [slow_reloaded_x, hsp, slow_call_state_sp, add64_sub64_160_16]
    simp [sp, c_rarg3]
  · rw [htr, slow_call_state_sp]
    rfl

/-- C10 witness: the sample machine and the sample resolver. -/
theorem slow_signature_handler_alignment_witness :
    sampleEnv.call_VM sampleGlobals.InterpreterRuntime_slow_signature_handler
      [getX sampleMachine xmethod, getX sampleMachine xlocals,
        align16 (getX sampleMachine esp)] (slow_call_state sampleMachine) =
      some sampleResolved ∧
    getX sampleResolved sp = getX (slow_call_state sampleMachine) sp ∧ 58 ≤ 58 ∧
    16 ∣ align16 (getX sampleMachine esp) ∧
    ∃ t s, run sampleEnv 4096 (slow_signature_handler_code sampleGlobals 4096) 58
        (State.entry sampleMachine) = .exit t s ∧
      getX s.m sp = align16 (getX sampleMachine esp) :=
  have h := slow_signature_handler_alignment sampleGlobals sampleEnv 4096 sampleMachine
    sampleResolved 58 sample_resolver_call sample_resolver_sp (le_refl 58)
  ⟨sample_resolver_call, sample_resolver_sp, le_refl 58, h.1,
    h.2.2.2.2.2.2.2.imp fun _ ht => ht.imp fun _ hs => ⟨hs.1, hs.2.1⟩⟩


/-! ## The empty-method entry and the abstract-method entry -/

theorem getX_with_mem (m : Machine) (mem : Nat → Nat) (q : Register) :
    getX { m with mem := mem } q = getX m q := rfl

theorem la_patchable_target (dest : address) (offset : Int) :
    add64 (toU64 ((dest : Int) - offset) % W64) (toU64 offset) = dest % W64 := by
  unfold add64 toU64 W64
  omega

theorem empty_entry_code_eq (G : Globals) (base : address)
    (hU : G.UseFastEmptyMethods = true) :
    empty_entry_code G base =
      [.la t1 ((G.SafepointSynchronize_address_of_state : Int) -
          (((G.SafepointSynchronize_address_of_state : Int) + 2048) % 4096 - 2048)),
       .lwu t1 t1 (((G.SafepointSynchronize_address_of_state : Int) + 2048) % 4096 - 2048),
       .bnez t1 .slow_path, .mv sp x30, .jr lr, .bind .slow_path] ++
      G.normal_entry_code false := by
  simp [empty_entry_code, generate_empty_entry, generate_normal_entry, la_patchable, hU,
    MacroAssembler.fresh, MacroAssembler.emit]

theorem run_empty_fast (G : Globals) (env : Env) (base : address) (m : Machine)
    (hU : G.UseFastEmptyMethods = true)
    (hw : load32 m.mem (G.SafepointSynchronize_address_of_state % W64) = 0) :
    run env base (empty_entry_code G base) 5 (State.entry m) =
      .exit (getX m lr)
        { pc := 4
          m := setX (setX (setX m t1
            (toU64 ((G.SafepointSynchronize_address_of_state : Int) -
              (((G.SafepointSynchronize_address_of_state : Int) + 2048) % 4096 - 2048))))
            t1 0) sp (getX m x30)
          trace := [] } := by
  rw [empty_entry_code_eq G base hU]
  simp [run, step, State.entry, effAddr, getX_setX, setX_mem, la_patchable_target, hw,
    t1, sp, lr, x30]

theorem run_empty_slow (G : Globals) (env : Env) (base : address) (m : Machine)
    (hU : G.UseFastEmptyMethods = true)
    (hw : load32 m.mem (G.SafepointSynchronize_address_of_state % W64) ≠ 0) (k : Nat)
    (hk : k ≤ 4) :
    ∃ s, run env base (empty_entry_code G base) k (State.entry m) = .running s ∧
      s.pc = (if k = 3 then 5 else if k = 4 then 6 else k) ∧
      (∀ r, r ≠ t1 → getX s.m r = getX m r) ∧ (∀ q, getF s.m q = getF m q) ∧
      s.m.mem = m.mem ∧ s.trace = [] := by
  rw [empty_entry_code_eq G base hU]
  have hw2 : ¬ load32 m.mem (G.SafepointSynchronize_address_of_state % W64) % W64 = 0 := by
    rw [load32_mod]; exact hw
  interval_cases k <;>
    simp [run, step, State.entry, effAddr, getX_setX, getF_setX, setX_mem,
      la_patchable_target, hw2, findLabel, List.findIdx_cons, Instr.isBind, t1] <;>
    intro r hr <;> simp [hr]

/-- C8: with UseFastEmptyMethods on, the empty-method entry is a two-state
machine on the 32-bit safepoint state word.  If the word is zero it sets sp to
the sender sp in x30 and jumps to lr, with no memory write and no register
changed other than sp and t1.  If the word is nonzero, control reaches the
first item of the code emitted by generate_normal_entry(false) with no memory
write and no register changed other than t1, and neither item of the fast
return is executed on the way. -/
theorem empty_entry_two_states (G : Globals) (env : Env) (base : address) (m : Machine)
    (hU : G.UseFastEmptyMethods = true) :
    (load32 m.mem (G.SafepointSynchronize_address_of_state % W64) = 0 →
      ∀ fuel, 5 ≤ fuel →
      ∃ s, run env base (empty_entry_code G base) fuel (State.entry m) =
          .exit (getX m lr) s ∧
        getX s.m sp = getX m x30 ∧
        (∀ r, r ≠ sp → r ≠ t1 → getX s.m r = getX m r) ∧
        (∀ q, getF s.m q = getF m q) ∧ s.m.mem = m.mem ∧ stores s.trace = []) ∧
    (load32 m.mem (G.SafepointSynchronize_address_of_state % W64) ≠ 0 →
      (empty_entry_code G base).drop 6 = G.normal_entry_code false ∧
      (∃ s, run env base (empty_entry_code G base) 4 (State.entry m) = .running s ∧
        s.pc = 6 ∧ (∀ r, r ≠ t1 → getX s.m r = getX m r) ∧
        (∀ q, getF s.m q = getF m q) ∧ s.m.mem = m.mem ∧ stores s.trace = []) ∧
      ∀ k, k ≤ 4 → ∃ s, run env base (empty_entry_code G base) k (State.entry m) =
        .running s ∧ s.pc ≠ 3 ∧ s.pc ≠ 4) := by
  constructor
  · intro hw fuel hfuel
    refine ⟨_, run_exit_of_le _ _ _ 5 fuel _ _ _ (run_empty_fast G env base m hU hw) hfuel,
      ?_, ?_, ?_, ?_, ?_⟩
    · simp [getX_setX, getX_mod, sp, t1]
    · intro r h2 h6
      simp [getX_setX, h2, h6]
    · intro q
      simp [getF_setX]
    · simp [setX_mem]
    · simp [stores]
  · intro hw
    refine ⟨?_, ?_, ?_⟩
    · rw [empty_entry_code_eq G base hU]
      simp
    · obtain ⟨s, hrun, hpc, hx, hf, hmem, htr⟩ := run_empty_slow G env base m hU hw 4 (le_refl 4)
      exact ⟨s, hrun, by simpa using hpc, hx, hf, hmem, by simp [htr, stores]⟩
    · intro k hk
      obtain ⟨s, hrun, hpc, _⟩ := run_empty_slow G env base m hU hw k hk
      refine ⟨s, hrun, ?_, ?_⟩ <;> rw [hpc] <;> split_ifs <;> omega

/-- C8 witness: the sample configuration has UseFastEmptyMethods on and the
sample memory holds a nonzero safepoint state word. -/
theorem empty_entry_two_states_witness :
    sampleGlobals.UseFastEmptyMethods = true ∧
    load32 sampleMachine.mem (sampleGlobals.SafepointSynchronize_address_of_state % W64) ≠ 0 ∧
    (empty_entry_code sampleGlobals 4096).drop 6 = sampleGlobals.normal_entry_code false ∧
    ∃ s, run sampleEnv 4096 (empty_entry_code sampleGlobals 4096) 4
        (State.entry sampleMachine) = .running s ∧ s.pc = 6 :=
  have h := (empty_entry_two_states sampleGlobals sampleEnv 4096 sampleMachine rfl).2
    (by decide)
  ⟨rfl, by decide, h.1, h.2.1.imp fun _ hs => ⟨hs.1, hs.2.1⟩⟩

theorem abstract_entry_code_eq (G : Globals) (base : address) :
    abstract_entry_code G base =
      [.empty_expression_stack, .restore_bcp, .restore_locals,
       .call_VM G.InterpreterRuntime_throw_AbstractMethodError [xmethod],
       .should_not_reach_here] := by
  simp [abstract_entry_code, generate_abstract_entry, MacroAssembler.fresh,
    MacroAssembler.emit]

theorem run_abstract_to_call (G : Globals) (env : Env) (base : address) (m : Machine) :
    run env base (abstract_entry_code G base) 3 (State.entry m) =
      .running { pc := 3, m := abstract_call_state env m,
                 trace := [.empty_expression_stack,
                   .store (effAddr m fp (env.interpreter_frame_last_sp_offset * wordSize)) 8,
                   .restore_bcp, .restore_locals] } := by
  rw [abstract_entry_code_eq]
  simp [run, step, State.entry, abstract_call_state, effAddr, getX_setX, getX_with_mem,
    setX_mem, fp, esp, xbcp, xlocals]

theorem abstract_call_state_xmethod (env : Env) (m : Machine) :
    getX (abstract_call_state env m) xmethod = getX m xmethod := by
  simp [abstract_call_state, getX_setX, getX_with_mem, xmethod, xlocals, xbcp, esp]

theorem run_abstract_from_call (G : Globals) (env : Env) (base : address) (m : Machine)
    (tr : List Event) :
    ∃ s, (run env base (abstract_entry_code G base) 2
          { pc := 3, m := abstract_call_state env m, trace := tr } = .forward_exception s ∨
        run env base (abstract_entry_code G base) 2
          { pc := 3, m := abstract_call_state env m, trace := tr } = .stop s) ∧
      s.trace = tr ++
        [.vm_call G.InterpreterRuntime_throw_AbstractMethodError [getX m xmethod]] := by
  rw [abstract_entry_code_eq]
  cases h : env.call_VM G.InterpreterRuntime_throw_AbstractMethodError [getX m xmethod]
      (abstract_call_state env m) with
  | none =>
    exact ⟨_, Or.inl (by simp [run, step, abstract_call_state_xmethod, h]; rfl), rfl⟩
  | some m1 =>
    exact ⟨_, Or.inr (by simp [run, step, abstract_call_state_xmethod, h]; rfl), rfl⟩

theorem run_abstract (G : Globals) (env : Env) (base : address) (m : Machine) :
    ∃ s, (run env base (abstract_entry_code G base) 5 (State.entry m) = .forward_exception s ∨
        run env base (abstract_entry_code G base) 5 (State.entry m) = .stop s) ∧
      s.trace = abstract_entry_events G env m := by
  rw [show 5 = 3 + 2 by rfl, run_add, run_abstract_to_call]
  simp only []
  exact run_abstract_from_call G env base m _

theorem run_abstract_short (G : Globals) (env : Env) (base : address) (m : Machine)
    (k : Nat) (hk : k ≤ 3) :
    ∃ s, run env base (abstract_entry_code G base) k (State.entry m) = .running s := by
  rw [abstract_entry_code_eq]
  interval_cases k <;> simp [run, step, State.entry]

/-- C9: `generate_abstract_entry` returns a non-NULL entry point whatever the
flags (for a buffer positioned at a non-NULL address); every run of the entry
empties the expression stack, restores bcp and locals and then calls
InterpreterRuntime::throw_AbstractMethodError with xmethod; the emitted
sequence has no return or jump, the only item after the runtime call is
should_not_reach_here, and no run ever transfers control back to the caller. -/
theorem abstract_entry_never_returns (G : Globals) (env : Env) (masm : MacroAssembler)
    (base : address) (hpc : masm.pc ≠ NULL) :
    (generate_abstract_entry G masm).1 ≠ NULL ∧
    abstract_entry_code G base =
      [.empty_expression_stack, .restore_bcp, .restore_locals,
       .call_VM G.InterpreterRuntime_throw_AbstractMethodError [xmethod],
       .should_not_reach_here] ∧
    (∀ i ∈ abstract_entry_code G base, i.isReturnOrJump = false) ∧
    (∀ m fuel, 5 ≤ fuel →
      ∃ s, (run env base (abstract_entry_code G base) fuel (State.entry m) =
            .forward_exception s ∨
          run env base (abstract_entry_code G base) fuel (State.entry m) = .stop s) ∧
        s.trace = abstract_entry_events G env m) ∧
    (∀ m fuel t s,
      run env base (abstract_entry_code G base) fuel (State.entry m) ≠ .exit t s) := by
  refine ⟨hpc, abstract_entry_code_eq G base, ?_, ?_, ?_⟩
  · rw [abstract_entry_code_eq]
    simp [Instr.isReturnOrJump]
  · intro m fuel hfuel
    obtain ⟨s, h, htr⟩ := run_abstract G env base m
    refine ⟨s, ?_, htr⟩
    rcases h with h | h
    · exact Or.inl (run_forward_exception_of_le _ _ _ 5 fuel _ _ h hfuel)
    · exact Or.inr (run_stop_of_le _ _ _ 5 fuel _ _ h hfuel)
  · intro m fuel t s hexit
    by_cases hf : fuel ≤ 3
    · obtain ⟨s1, h1⟩ := run_abstract_short G env base m fuel hf
      rw [h1] at hexit
      cases hexit
    · by_cases hf4 : fuel = 4
      · subst hf4
        rw [show 4 = 3 + 1 by rfl, run_add, run_abstract_to_call, abstract_entry_code_eq] at hexit
        simp only [run, step] at hexit
        revert hexit
        simp
        cases env.call_VM G.InterpreterRuntime_throw_AbstractMethodError
          [getX (abstract_call_state env m) xmethod] (abstract_call_state env m) <;> simp
      · obtain ⟨s1, h, _⟩ := run_abstract G env base m
        rcases h with h | h
        · rw [run_forward_exception_of_le _ _ _ 5 fuel _ _ h (by omega)] at hexit
          cases hexit
        · rw [run_stop_of_le _ _ _ 5 fuel _ _ h (by omega)] at hexit
          cases hexit

/-- C9 witness: a fresh buffer at address 4096. -/
theorem abstract_entry_never_returns_witness :
    (MacroAssembler.fresh 4096).pc ≠ NULL ∧
    (generate_abstract_entry sampleGlobals (MacroAssembler.fresh 4096)).1 ≠ NULL ∧
    ∀ fuel t s, run sampleEnv 4096 (abstract_entry_code sampleGlobals 4096) fuel
      (State.entry sampleMachine) ≠ .exit t s :=
  have h := abstract_entry_never_returns sampleGlobals sampleEnv (MacroAssembler.fresh 4096)
    4096 (by decide)
  ⟨by decide, h.1, fun fuel t s => h.2.2.2.2 sampleMachine fuel t s⟩

end Riscv64Interp
